import Mathlib

/-!
Verification development for the selector-cache and element-resolution core of
the Playwright LLM agent repository.

The embedding works over `Str := List Char`.  JavaScript strings are modelled
as their character lists; the handful of Unicode-dependent primitives used by
the code (`String.prototype.toLowerCase`, `String.prototype.normalize('NFD')`)
are modelled by explicit character tables that are faithful on the ASCII and
Latin-1 range (the range exercised by the repository, whose instructions are
Spanish/English text) and act as the identity elsewhere.  Floating point
arithmetic appears in the source only in the Dice-similarity comparison
`similarity >= threshold`; it is modelled by exact rational comparison
(`Frac`), i.e. the idealized real-number comparison.
-/

/-- Str is the model of a JavaScript string: its list of characters. -/
abbrev Str := List Char

/-- Membership of a character in the JavaScript regular-expression class `\s`
(also the class trimmed by `String.prototype.trim`): space, tab, LF, VT, FF,
CR, NBSP, U+1680, U+2000-U+200A, LS, PS, U+202F, U+205F, U+3000, BOM. -/
def isJsSpace (c : Char) : Bool :=
  decide (c.toNat = 0x20 ∨ c.toNat = 0x09 ∨ c.toNat = 0x0a ∨ c.toNat = 0x0b ∨
    c.toNat = 0x0c ∨ c.toNat = 0x0d ∨ c.toNat = 0xa0 ∨ c.toNat = 0x1680 ∨
    (0x2000 ≤ c.toNat ∧ c.toNat ≤ 0x200a) ∨ c.toNat = 0x2028 ∨ c.toNat = 0x2029 ∨
    c.toNat = 0x202f ∨ c.toNat = 0x205f ∨ c.toNat = 0x3000 ∨ c.toNat = 0xfeff)

/-- Membership in the JavaScript regular-expression class `\w`:
ASCII letters, digits and underscore. -/
def isWordChar (c : Char) : Bool :=
  decide ((0x30 ≤ c.toNat ∧ c.toNat ≤ 0x39) ∨ (0x41 ≤ c.toNat ∧ c.toNat ≤ 0x5a) ∨
    (0x61 ≤ c.toNat ∧ c.toNat ≤ 0x7a) ∨ c.toNat = 0x5f)

/-- Membership in the combining-diacritical-marks block U+0300-U+036F removed
by `.replace(/[̀-ͯ]/g, '')`. -/
def isCombiningMark (c : Char) : Bool :=
  decide (0x300 ≤ c.toNat ∧ c.toNat ≤ 0x36f)

/-- Case-folding table modelling `String.prototype.toLowerCase` on the ASCII
and Latin-1 range (identity outside the table). -/
def lowerTable : List (Char × Char) :=
  [('A', 'a'), ('B', 'b'), ('C', 'c'), ('D', 'd'), ('E', 'e'), ('F', 'f'),
   ('G', 'g'), ('H', 'h'), ('I', 'i'), ('J', 'j'), ('K', 'k'), ('L', 'l'),
   ('M', 'm'), ('N', 'n'), ('O', 'o'), ('P', 'p'), ('Q', 'q'), ('R', 'r'),
   ('S', 's'), ('T', 't'), ('U', 'u'), ('V', 'v'), ('W', 'w'), ('X', 'x'),
   ('Y', 'y'), ('Z', 'z'),
   ('À', 'à'), ('Á', 'á'), ('Â', 'â'),
   ('Ã', 'ã'), ('Ä', 'ä'), ('Å', 'å'),
   ('Æ', 'æ'), ('Ç', 'ç'), ('È', 'è'),
   ('É', 'é'), ('Ê', 'ê'), ('Ë', 'ë'),
   ('Ì', 'ì'), ('Í', 'í'), ('Î', 'î'),
   ('Ï', 'ï'), ('Ð', 'ð'), ('Ñ', 'ñ'),
   ('Ò', 'ò'), ('Ó', 'ó'), ('Ô', 'ô'),
   ('Õ', 'õ'), ('Ö', 'ö'), ('Ø', 'ø'),
   ('Ù', 'ù'), ('Ú', 'ú'), ('Û', 'û'),
   ('Ü', 'ü'), ('Ý', 'ý'), ('Þ', 'þ')]

/-- Lower-casing of one character (table lookup, identity on other characters). -/
def jsLowerChar (c : Char) : Char :=
  ((lowerTable.find? (fun p => p.1 == c)).map Prod.snd).getD c

/-- Model of `instruction.toLowerCase()`. -/
def jsLowerStr (s : Str) : Str := s.map jsLowerChar

/-- Canonical-decomposition table modelling `String.prototype.normalize('NFD')`
on the precomposed Latin-1 letters (identity outside the table; the letters
æ, ð, ø, þ have no canonical decomposition). -/
def nfdTable : List (Char × List Char) :=
  [('à', ['a', '̀']), ('á', ['a', '́']),
   ('â', ['a', '̂']), ('ã', ['a', '̃']),
   ('ä', ['a', '̈']), ('å', ['a', '̊']),
   ('ç', ['c', '̧']),
   ('è', ['e', '̀']), ('é', ['e', '́']),
   ('ê', ['e', '̂']), ('ë', ['e', '̈']),
   ('ì', ['i', '̀']), ('í', ['i', '́']),
   ('î', ['i', '̂']), ('ï', ['i', '̈']),
   ('ñ', ['n', '̃']),
   ('ò', ['o', '̀']), ('ó', ['o', '́']),
   ('ô', ['o', '̂']), ('õ', ['o', '̃']),
   ('ö', ['o', '̈']),
   ('ù', ['u', '̀']), ('ú', ['u', '́']),
   ('û', ['u', '̂']), ('ü', ['u', '̈']),
   ('ý', ['y', '́']), ('ÿ', ['y', '̈'])]

/-- NFD decomposition of one character. -/
def nfdChar (c : Char) : List Char :=
  ((nfdTable.find? (fun p => p.1 == c)).map Prod.snd).getD [c]

/-- Model of `.normalize('NFD')`: characterwise decomposition. -/
def nfdStr : Str → Str
  | [] => []
  | c :: r => nfdChar c ++ nfdStr r

/-- Model of `.replace(/[̀-ͯ]/g, '')`. -/
def stripMarks (s : Str) : Str := s.filter (fun c => !isCombiningMark c)

/-- Worker for `collapseSpaces`; the flag records whether the previous
character belonged to a whitespace run whose single output space was already
emitted. -/
def collapseAux : Bool → Str → Str
  | _, [] => []
  | inRun, c :: r =>
    if isJsSpace c then
      if inRun then collapseAux true r else ' ' :: collapseAux true r
    else c :: collapseAux false r

/-- Model of `.replace(/\s+/g, ' ')`: every maximal whitespace run becomes one
space. -/
def collapseSpaces (s : Str) : Str := collapseAux false s

/-- Model of `.replace(/[^\w\s]/g, '')`: keep word characters and whitespace. -/
def stripPunct (s : Str) : Str := s.filter (fun c => isWordChar c || isJsSpace c)

/-- Model of `String.prototype.trim`. -/
def jsTrim (s : Str) : Str :=
  ((s.dropWhile isJsSpace).reverse.dropWhile isJsSpace).reverse

/-- Model of `SelectorCacheManager.normalizeInstruction`: lower-case, NFD,
strip combining marks, collapse whitespace runs, strip punctuation, trim —
in exactly the source's order. -/
def normalizeInstruction (s : Str) : Str :=
  jsTrim (stripPunct (collapseSpaces (stripMarks (nfdStr (jsLowerStr s)))))

/-- Model of `SelectorCacheManager.extractUrlPattern`: `new URL(url).pathname`
for http(s) URLs; any other string is treated as the `catch` branch does and
returned unchanged.  (The WHATWG URL parser is a platform primitive; it is
modelled here for well-formed http/https URLs, the only shape the agent ever
passes: the path is what follows the first `/` after the authority, up to `?`
or `#`, defaulting to `/`.) -/
def extractUrlPattern (url : Str) : Str :=
  if ("http://".data.isPrefixOf url || "https://".data.isPrefixOf url) then
    let afterScheme := if "https://".data.isPrefixOf url then url.drop 8 else url.drop 7
    let afterAuthority := afterScheme.dropWhile (fun c => !(c = '/' || c = '?' || c = '#'))
    match afterAuthority with
    | [] => ['/']
    | c :: _ =>
      if c = '/' then afterAuthority.takeWhile (fun c2 => !(c2 = '?' || c2 = '#'))
      else ['/']
  else url

/-- Model of `SelectorCacheManager.generateCacheKey`. -/
def generateCacheKey (url instruction : Str) : Str :=
  extractUrlPattern url ++ [':', ':'] ++ normalizeInstruction instruction

/-- Model of `str.split(' ')` (single-space separator, not a whitespace class). -/
def splitOnSpaceSep : Str → List Str
  | [] => [[]]
  | c :: r =>
    if c = ' ' then [] :: splitOnSpaceSep r
    else
      match splitOnSpaceSep r with
      | [] => [[c]]
      | h :: t => (c :: h) :: t

/-- Model of `key.split('::')`. -/
def splitOnColons : Str → List Str
  | [] => [[]]
  | [c] => [[c]]
  | c :: c2 :: r =>
    if c = ':' ∧ c2 = ':' then [] :: splitOnColons r
    else
      match splitOnColons (c2 :: r) with
      | [] => [[c]]
      | h :: t => (c :: h) :: t

/-- Deduplication keeping first occurrences, the iteration order of a
JavaScript `Set` built from a list. -/
def dedupFirst : List Str → List Str
  | [] => []
  | w :: r => w :: (dedupFirst r).filter (fun x => x ≠ w)

/-- Frac n d models the non-negative rational number n / d (all construction
sites have d > 0).  The source computes Dice similarities as IEEE doubles; the
model uses exact rational values. -/
structure Frac where
  num : Nat
  den : Nat
deriving DecidableEq, Repr

/-- Exact comparison a ≤ b of the rationals modelled by two Frac values
(cross multiplication; both denominators positive at every use site). -/
def Frac.le (a b : Frac) : Bool := decide (a.num * b.den ≤ b.num * a.den)

/-- Word set of one side of the Dice similarity: split on single spaces, keep
words longer than 2 characters, deduplicate (a JavaScript `Set`). -/
def wordSet (s : Str) : List Str :=
  dedupFirst ((splitOnSpaceSep s).filter (fun w => 2 < w.length))

/-- Model of `SelectorCacheManager.calculateSimilarity` (Dice coefficient over
the two word sets, with the source's two special cases for empty sets). -/
def calculateSimilarity (s1 s2 : Str) : Frac :=
  let words1 := wordSet s1
  let words2 := wordSet s2
  if words1.length = 0 ∧ words2.length = 0 then ⟨1, 1⟩
  else if words1.length = 0 ∨ words2.length = 0 then ⟨0, 1⟩
  else ⟨2 * (words1.filter (fun w => words2.contains w)).length,
        words1.length + words2.length⟩

/-- Model of the `CachedAction` record. -/
structure CachedAction where
  selector : Str
  actionType : Str
  description : Str
  value : Option Str
deriving DecidableEq, Repr

/-- Model of the `CachedSelector` record. -/
structure CachedSelector where
  actions : List CachedAction
  reasoning : Str
  timestamp : Nat
  lastSuccess : Nat
  successCount : Nat
  failureCount : Nat
deriving DecidableEq, Repr

/-- Model of `SelectorCacheConfig`. -/
structure SelectorCacheConfig where
  maxSize : Nat
  defaultTTL : Nat
  maxFailures : Nat
  cleanupInterval : Nat
  cacheFilePath : Str
  appVersion : Str
  similarityThreshold : Frac
  debug : Bool
deriving Repr

/-- Model of `DEFAULT_CONFIG` (similarityThreshold 0.85 = 85/100). -/
def DEFAULT_CONFIG : SelectorCacheConfig :=
  ⟨500, 24 * 60 * 60 * 1000, 3, 60 * 60 * 1000,
   "./selector-cache.json".data, "1.0.0".data, ⟨85, 100⟩, false⟩

/-- Cache is the model of the private `cache : SelectorCacheData` object: an
insertion-ordered association list.  JavaScript objects enumerate string keys
(none of the generated keys is integer-like, every one contains "::") in
insertion order, assignment to an existing key keeps its position, `delete`
removes the binding.  The hit/miss statistics, the debug log, the disk
persistence and the cleanup timer of the class are pure telemetry / IO and are
not part of the state model. -/
abbrev Cache := List (Str × CachedSelector)

/-- Property lookup `cache[key]`. -/
def lookupKey : Cache → Str → Option CachedSelector
  | [], _ => none
  | (k, e) :: r, key => if k = key then some e else lookupKey r key

/-- Property assignment `cache[key] = v` (overwrite keeps the position,
otherwise append at the end of the enumeration order). -/
def setKey : Cache → Str → CachedSelector → Cache
  | [], key, v => [(key, v)]
  | (k, e) :: r, key, v =>
    if k = key then (key, v) :: r else (k, e) :: setKey r key v

/-- Property deletion `delete cache[key]` (keys are unique in every reachable
cache, so removing the first binding is removing the binding). -/
def eraseKey : Cache → Str → Cache
  | [], _ => []
  | (k, e) :: r, key => if k = key then r else (k, e) :: eraseKey r key

/-- Model of `SelectorCacheManager.isExpired` at current time `now`
(`Date.now()` passed explicitly).  Truncated subtraction agrees with the
JavaScript signed subtraction: for `now < timestamp` both sides report
"not expired". -/
def isExpired (cfg : SelectorCacheConfig) (now : Nat) (entry : CachedSelector) : Bool :=
  decide (cfg.defaultTTL < now - entry.timestamp)

/-- Fuzzy half of `SelectorCacheManager.find`: iterate the entries in order,
skip keys not starting with the query pattern followed by "::", skip expired
or failure-saturated entries, return the first entry whose stored-key segment
`key.split('::')[1]` is at least similarityThreshold-similar to the
normalized query instruction. -/
def fuzzyScan (cfg : SelectorCacheConfig) (now : Nat) (urlPattern normIns : Str) :
    Cache → Option CachedSelector
  | [] => none
  | (k, e) :: r =>
    if !((urlPattern ++ [':', ':']).isPrefixOf k) then
      fuzzyScan cfg now urlPattern normIns r
    else if isExpired cfg now e || decide (cfg.maxFailures ≤ e.failureCount) then
      fuzzyScan cfg now urlPattern normIns r
    else if Frac.le cfg.similarityThreshold
        (calculateSimilarity normIns ((splitOnColons k).getD 1 [])) then
      some e
    else fuzzyScan cfg now urlPattern normIns r

/-- Model of `SelectorCacheManager.find`: exact lookup with eager deletion of
an expired or failure-saturated exact entry, then the fuzzy scan.  Returns the
lookup result together with the cache state after the call. -/
def find (cfg : SelectorCacheConfig) (now : Nat) (cache : Cache) (url instruction : Str) :
    Option CachedSelector × Cache :=
  let exactKey := generateCacheKey url instruction
  match lookupKey cache exactKey with
  | some entry =>
    if isExpired cfg now entry then (none, eraseKey cache exactKey)
    else if cfg.maxFailures ≤ entry.failureCount then (none, eraseKey cache exactKey)
    else (some entry, cache)
  | none =>
    (fuzzyScan cfg now (extractUrlPattern url) (normalizeInstruction instruction) cache,
     cache)

/-- Relation used by `enforceMaxSize`: ascending `lastSuccess` (the numeric
comparator `a[1].lastSuccess - b[1].lastSuccess`). -/
def byLastSuccess (a b : Str × CachedSelector) : Prop :=
  a.2.lastSuccess ≤ b.2.lastSuccess

instance : DecidableRel byLastSuccess :=
  fun a b => Nat.decLe a.2.lastSuccess b.2.lastSuccess

instance : IsTotal (Str × CachedSelector) byLastSuccess :=
  ⟨fun a b => Nat.le_total a.2.lastSuccess b.2.lastSuccess⟩

instance : IsTrans (Str × CachedSelector) byLastSuccess :=
  ⟨fun _ _ _ h h2 => Nat.le_trans h h2⟩

/-- Model of `SelectorCacheManager.enforceMaxSize`: when the entry count has
reached maxSize, stably sort the entries by ascending lastSuccess and delete
the first `Math.floor(maxSize * 0.2)` keys.  (`insertionSort` is stable, like
`Array.prototype.sort`; `maxSize * 2 / 10` in Nat equals the double-precision
`Math.floor(maxSize * 0.2)` for every realistic maxSize.) -/
def enforceMaxSize (cfg : SelectorCacheConfig) (cache : Cache) : Cache :=
  if cfg.maxSize ≤ cache.length then
    let sorted := List.insertionSort byLastSuccess cache
    let toRemove := cfg.maxSize * 2 / 10
    ((sorted.take toRemove).map Prod.fst).foldl eraseKey cache
  else cache

/-- Model of `SelectorCacheManager.set`: size enforcement first, then
insert/overwrite the exact-key entry with fresh counters (both `Date.now()`
reads fall in the same instant `now`). -/
def set (cfg : SelectorCacheConfig) (now : Nat) (cache : Cache)
    (url instruction : Str) (actions : List CachedAction) (reasoning : Str) : Cache :=
  let withRoom := enforceMaxSize cfg cache
  setKey withRoom (generateCacheKey url instruction)
    ⟨actions, reasoning, now, now, 1, 0⟩

/-- Model of `SelectorCacheManager.markSuccess`. -/
def markSuccess (cfg : SelectorCacheConfig) (now : Nat) (cache : Cache)
    (url instruction : Str) : Cache :=
  let key := generateCacheKey url instruction
  match lookupKey cache key with
  | some e =>
    setKey cache key
      ⟨e.actions, e.reasoning, e.timestamp, now, e.successCount + 1, 0⟩
  | none => cache

/-- Model of `SelectorCacheManager.markFailure`: increment the counter; at the
threshold delete the entry and report invalidation. -/
def markFailure (cfg : SelectorCacheConfig) (cache : Cache)
    (url instruction : Str) : Bool × Cache :=
  let key := generateCacheKey url instruction
  match lookupKey cache key with
  | some e =>
    if cfg.maxFailures ≤ e.failureCount + 1 then (true, eraseKey cache key)
    else
      (false,
       setKey cache key
         ⟨e.actions, e.reasoning, e.timestamp, e.lastSuccess, e.successCount,
          e.failureCount + 1⟩)
  | none => (false, cache)

/-- Model of `SelectorCacheManager.invalidate`. -/
def invalidate (cfg : SelectorCacheConfig) (cache : Cache)
    (url instruction : Str) : Cache :=
  let key := generateCacheKey url instruction
  match lookupKey cache key with
  | some _ => eraseKey cache key
  | none => cache

/-- Model of `SelectorCacheManager.cleanup`: sweep every entry, deleting
expired ones and failure-saturated ones; returns the removal count with the
swept cache. -/
def cleanup (cfg : SelectorCacheConfig) (now : Nat) : Cache → Nat × Cache
  | [] => (0, [])
  | (k, e) :: r =>
    let rest := cleanup cfg now r
    if decide (cfg.defaultTTL < now - e.timestamp) then (rest.1 + 1, rest.2)
    else if decide (cfg.maxFailures ≤ e.failureCount) then (rest.1 + 1, rest.2)
    else (rest.1, (k, e) :: rest.2)

/-- Model of one action of the `AIDecision` JSON shape consumed by the agent. -/
structure AIAction where
  type : Str
  description : Str
  locator : Str
  value : Option Str
deriving DecidableEq, Repr

/-- Model of the `AIDecision` shape (the optional `fromCache` flag defaults to
false, as an absent field is falsy). -/
structure AIDecision where
  actions : List AIAction
  reasoning : Str
  needsVerification : Bool
  fromCache : Bool
deriving DecidableEq, Repr

/-- Conversion used when `analyzePageAndDecide` rebuilds a decision from a
cache entry. -/
def actionOfCached (a : CachedAction) : AIAction :=
  ⟨a.actionType, a.description, a.selector, a.value⟩

/-- Conversion used when `analyzePageAndDecide` stores a fresh decision. -/
def cachedOfAction (a : AIAction) : CachedAction :=
  ⟨a.locator, a.type, a.description, a.value⟩

/-- Model of `PlaywrightAIAgent.analyzePageAndDecide`, with the browser and
model calls abstracted: `currentUrl` is the stable page URL the method reads
after the page settles, and `llm` is the decision the language model's JSON
would parse to (the model is consulted only on the non-cache path; parsing is
assumed to succeed — parse failures throw before any cache write and are
outside the modelled control flow).  Returns the decision, the cache state
after the call, and the number of model calls made (0 or 1). -/
def analyzePageAndDecide (cfg : SelectorCacheConfig) (now : Nat)
    (useSelectorCache : Bool) (skipCache : Bool) (cache : Cache)
    (currentUrl instruction : Str) (llm : AIDecision) :
    AIDecision × Cache × Nat :=
  let cacheStep :=
    if useSelectorCache && !skipCache then find cfg now cache currentUrl instruction
    else (none, cache)
  match cacheStep with
  | (some cached, cacheAfterFind) =>
    if 0 < cached.actions.length then
      (⟨cached.actions.map actionOfCached,
        "[DESDE CACHÉ] ".data ++ cached.reasoning, false, true⟩,
       cacheAfterFind, 0)
    else
      let decision : AIDecision := ⟨llm.actions, llm.reasoning, llm.needsVerification, false⟩
      let cacheAfterSet :=
        if useSelectorCache && decide (0 < decision.actions.length) then
          set cfg now cacheAfterFind currentUrl instruction
            (decision.actions.map cachedOfAction) decision.reasoning
        else cacheAfterFind
      (decision, cacheAfterSet, 1)
  | (none, cacheAfterFind) =>
    let decision : AIDecision := ⟨llm.actions, llm.reasoning, llm.needsVerification, false⟩
    let cacheAfterSet :=
      if useSelectorCache && decide (0 < decision.actions.length) then
        set cfg now cacheAfterFind currentUrl instruction
          (decision.actions.map cachedOfAction) decision.reasoning
      else cacheAfterFind
    (decision, cacheAfterSet, 1)

/-- Observable outcome of one `PlaywrightAIAgent.execute` call in the model:
overall success, number of model calls, whether the bypass-cache replan path
ran, whether `invalidate` was called, the cache state right after the
`invalidate` call when it happened, and the final cache state. -/
structure ExecTrace where
  success : Bool
  llmCalls : Nat
  replanned : Bool
  invalidateCalled : Bool
  cacheAfterInvalidate : Option Cache
  finalCache : Cache
deriving Repr

/-- Model of `PlaywrightAIAgent.execute` (the per-step body of
`executeFlow` has the same branch structure).  `pageUrlBefore` is what
`this.page.url()` returns before the `goto` — the method captures
`executionUrl = this.page.url() || url` at entry and uses it for every
cache-health call, while the analysis uses the post-navigation stable URL,
here `targetUrl`.  `failFirst` / `failSecond` are oracles for "executing the
(first / replanned) plan's actions throws". -/
def executeStep (cfg : SelectorCacheConfig) (now : Nat) (useSelectorCache : Bool)
    (cache0 : Cache) (pageUrlBefore targetUrl instruction : Str)
    (llm1 llm2 : AIDecision) (failFirst failSecond : Bool) : ExecTrace :=
  let executionUrl := if pageUrlBefore.length = 0 then targetUrl else pageUrlBefore
  let step1 := analyzePageAndDecide cfg now useSelectorCache false cache0 targetUrl instruction llm1
  let decision1 := step1.1
  let cache1 := step1.2.1
  let calls1 := step1.2.2
  let usedCache := decision1.fromCache
  if !failFirst then
    let final := if useSelectorCache then markSuccess cfg now cache1 executionUrl instruction else cache1
    ⟨true, calls1, false, false, none, final⟩
  else if usedCache && useSelectorCache then
    let cache2 := invalidate cfg cache1 executionUrl instruction
    let step2 := analyzePageAndDecide cfg now useSelectorCache true cache2 targetUrl instruction llm2
    let cache3 := step2.2.1
    let calls2 := step2.2.2
    if failSecond then
      let final := if useSelectorCache then (markFailure cfg cache3 executionUrl instruction).2 else cache3
      ⟨false, calls1 + calls2, true, true, some cache2, final⟩
    else
      let final := if useSelectorCache then markSuccess cfg now cache3 executionUrl instruction else cache3
      ⟨true, calls1 + calls2, true, true, some cache2, final⟩
  else
    let final := if useSelectorCache then (markFailure cfg cache1 executionUrl instruction).2 else cache1
    ⟨false, calls1, false, false, none, final⟩

/-- Character class captured by the id-extraction regular expression
`/id[=:]?\s*['"]?([^'">\s]+)/i`: anything but quotes, `>` and whitespace. -/
def isIdCaptureChar (c : Char) : Bool :=
  !(c = '\'' || c = '"' || c = '>' || isJsSpace c)

/-- Greedy `([^'">\s]+)` at the current position: at least one capture
character. -/
def capturePlus (r : Str) : Option Str :=
  match r.takeWhile isIdCaptureChar with
  | [] => none
  | l => some l

/-- Optional quote `['"]?` then the capture, with the regex's backtracking
order (consume the quote first, else retry without consuming it). -/
def afterQuoteOpt (r : Str) : Option Str :=
  match r with
  | [] => none
  | c :: r1 =>
    if c = '\'' || c = '"' then
      match capturePlus r1 with
      | some l => some l
      | none => capturePlus r
    else capturePlus r

/-- Greedy `\s*` then the rest, backtracking from the longest run. -/
def spacesOpt : Str → Option Str
  | [] => none
  | c :: r =>
    if isJsSpace c then
      match spacesOpt r with
      | some l => some l
      | none => afterQuoteOpt (c :: r)
    else afterQuoteOpt (c :: r)

/-- Wrapper giving `\s*` its zero-repetition case. -/
def afterDelim (r : Str) : Option Str :=
  match spacesOpt r with
  | some l => some l
  | none => afterQuoteOpt r

/-- Optional `[=:]?` after the literal `id`, preferring to consume it. -/
def afterIdToken (r : Str) : Option Str :=
  match r with
  | [] => none
  | c :: r1 =>
    if c = '=' || c = ':' then
      match afterDelim r1 with
      | some l => some l
      | none => afterDelim r
    else afterDelim r

/-- Leftmost match of `/id[=:]?\s*['"]?([^'">\s]+)/i` over the hint string:
the model of `description.match(...)` capture group 1 in
`PlaywrightAIAgent.findElementByDescription`. -/
def extractId : Str → Option Str
  | [] => none
  | c :: r =>
    match r with
    | [] => none
    | d :: r2 =>
      if (c = 'i' || c = 'I') && (d = 'd' || d = 'D') then
        match afterIdToken r2 with
        | some l => some l
        | none => extractId r
      else extractId r

/-- Test of `/^:r\d+:$/i`. -/
def matchesColonRDigits (s : Str) : Bool :=
  match s with
  | ':' :: c :: rest =>
    (c = 'r' || c = 'R') && !(rest.takeWhile Char.isDigit).isEmpty &&
      rest.dropWhile Char.isDigit = [':']
  | _ => false

/-- Line terminators excluded by `.` in a JavaScript regex without the `s`
flag. -/
def isLineTerm (c : Char) : Bool :=
  c = '\n' || c = '\r' || decide (c.toNat = 0x2028) || decide (c.toNat = 0x2029)

/-- Test of `/^:.*:$/`. -/
def matchesColonAnyColon (s : Str) : Bool :=
  match s with
  | ':' :: rest =>
    !rest.isEmpty && rest.getLast? = some ':' && rest.dropLast.all (fun c => !isLineTerm c)
  | _ => false

/-- Test of `/^mui-\d+$/`. -/
def matchesMuiDigits (s : Str) : Bool :=
  match s with
  | 'm' :: 'u' :: 'i' :: '-' :: rest => !rest.isEmpty && rest.all Char.isDigit
  | _ => false

/-- Model of the dynamic-id guard
`/^:r\d+:$/i.test(id) || /^:.*:$/.test(id) || /^mui-\d+$/.test(id)`. -/
def isDynamicReactId (s : Str) : Bool :=
  matchesColonRDigits s || matchesColonAnyColon s || matchesMuiDigits s

/-- Abstraction of the live page for the id strategy: which ids the locator
`#id, [id="id"]` would find (count > 0). -/
structure PageModel where
  hasId : Str → Bool

/-- Model of strategy 4 of `PlaywrightAIAgent.findElementByDescription`
("Por id extraído (SOLO si no es ID dinámico de React)"): extract an id token
from the hint; yield nothing when the token matches the ephemeral-id pattern,
even when the page has the element; otherwise yield the id the locator
resolved. -/
def idStrategy (page : PageModel) (description : Str) : Option Str :=
  match extractId description with
  | none => none
  | some id =>
    if isDynamicReactId id then none
    else if page.hasId id then some id
    else none

/-- Run of n consecutive `markFailure` calls on the same (url, instruction)
key with no intervening success: the list of returned `invalidated` flags in
call order, with the final cache state. -/
def markFailureRun (cfg : SelectorCacheConfig) (cache : Cache)
    (url instruction : Str) : Nat → List Bool × Cache
  | 0 => ([], cache)
  | n + 1 =>
    let step := markFailure cfg cache url instruction
    let rest := markFailureRun cfg step.2 url instruction n
    (step.1 :: rest.1, rest.2)

/-- Whether a string contains the two-character substring "::". -/
def containsCC : Str → Bool
  | [] => false
  | [_] => false
  | c :: c2 :: r => (c = ':' && c2 = ':') || containsCC (c2 :: r)

/-- Well-formedness of a page pattern as the left half of a cache key: the
pattern neither contains "::" nor ends in ':', so the first "::" of the key
is exactly the separator written by `generateCacheKey`. -/
def goodPattern (p : Str) : Prop :=
  containsCC p = false ∧ p.getLast? ≠ some ':'

/-- Cache built from explicit (pagePattern, storedInstruction, entry)
triples, with the keys `generateCacheKey` would produce. -/
def itemsCache (items : List (Str × Str × CachedSelector)) : Cache :=
  items.map (fun t => (t.1 ++ [':', ':'] ++ t.2.1, t.2.2))

theorem lookupKey_setKey_self (c : Cache) (k : Str) (v : CachedSelector) :
    lookupKey (setKey c k v) k = some v := by
  induction c with
  | nil => simp [setKey, lookupKey]
  | cons p r ih =>
    obtain ⟨k0, e0⟩ := p
    by_cases h : k0 = k
    · simp [setKey, h, lookupKey]
    · simp [setKey, h, lookupKey, ih]

theorem eraseKey_setKey (c : Cache) (k : Str) (v e : CachedSelector)
    (h : lookupKey c k = some e) : eraseKey (setKey c k v) k = eraseKey c k := by
  induction c with
  | nil => simp [lookupKey] at h
  | cons p r ih =>
    obtain ⟨k0, e0⟩ := p
    by_cases hk : k0 = k
    · simp [setKey, hk, eraseKey]
    · simp [lookupKey, hk] at h
      simp [setKey, hk, eraseKey, ih h]

theorem lookupKey_eq_none_of_not_mem (c : Cache) (k : Str)
    (h : k ∉ c.map Prod.fst) : lookupKey c k = none := by
  induction c with
  | nil => rfl
  | cons p r ih =>
    obtain ⟨k0, e0⟩ := p
    simp only [List.map_cons, List.mem_cons] at h
    push_neg at h
    have hne : k0 ≠ k := fun hh => h.1 hh.symm
    simp [lookupKey, hne, ih h.2]

theorem lookupKey_eraseKey_self (c : Cache) (k : Str)
    (h : (c.map Prod.fst).Nodup) : lookupKey (eraseKey c k) k = none := by
  induction c with
  | nil => rfl
  | cons p r ih =>
    obtain ⟨k0, e0⟩ := p
    simp only [List.map_cons, List.nodup_cons] at h
    by_cases hk : k0 = k
    · subst hk
      have herase : eraseKey ((k0, e0) :: r) k0 = r := by simp [eraseKey]
      rw [herase]
      exact lookupKey_eq_none_of_not_mem r k0 h.1
    · simp [eraseKey, hk, lookupKey, ih h.2]

theorem markFailureRun_invalidates (cfg : SelectorCacheConfig) (url ins : Str) :
    ∀ (n : Nat) (cache : Cache) (e : CachedSelector),
    lookupKey cache (generateCacheKey url ins) = some e →
    e.failureCount + n = cfg.maxFailures → 1 ≤ n →
    markFailureRun cfg cache url ins n =
      (List.replicate (n - 1) false ++ [true],
       eraseKey cache (generateCacheKey url ins))
  | 0, _, _, _, _, h1 => by omega
  | 1, cache, e, hlook, hcount, _ => by
    have hcond : cfg.maxFailures ≤ e.failureCount + 1 := by omega
    simp [markFailureRun, markFailure, hlook, if_pos hcond]
  | n + 2, cache, e, hlook, hcount, _ => by
    have hcond : ¬ cfg.maxFailures ≤ e.failureCount + 1 := by omega
    have hstep :
        markFailure cfg cache url ins =
          (false,
           setKey cache (generateCacheKey url ins)
             ⟨e.actions, e.reasoning, e.timestamp, e.lastSuccess, e.successCount,
              e.failureCount + 1⟩) := by
      simp [markFailure, hlook, if_neg hcond]
    have ih :=
      markFailureRun_invalidates cfg url ins (n + 1)
        (setKey cache (generateCacheKey url ins)
          ⟨e.actions, e.reasoning, e.timestamp, e.lastSuccess, e.successCount,
           e.failureCount + 1⟩)
        ⟨e.actions, e.reasoning, e.timestamp, e.lastSuccess, e.successCount,
         e.failureCount + 1⟩
        (lookupKey_setKey_self _ _ _) (by simp; omega) (by omega)
    have herase :
        eraseKey
          (setKey cache (generateCacheKey url ins)
            ⟨e.actions, e.reasoning, e.timestamp, e.lastSuccess, e.successCount,
             e.failureCount + 1⟩)
          (generateCacheKey url ins) =
        eraseKey cache (generateCacheKey url ins) :=
      eraseKey_setKey _ _ _ _ hlook
    have hrun : markFailureRun cfg cache url ins (n + 2) =
        ((markFailure cfg cache url ins).1 ::
          (markFailureRun cfg (markFailure cfg cache url ins).2 url ins (n + 1)).1,
         (markFailureRun cfg (markFailure cfg cache url ins).2 url ins (n + 1)).2) := rfl
    rw [hrun, hstep]
    dsimp only
    rw [ih, herase]
    simp [List.replicate_succ]

/-- C1: the cache-key normalization is NOT idempotent as claimed; the claim
fails on the explicit instruction "a . b".  Removing the punctuation character
happens after whitespace runs were collapsed, so deleting the "." leaves two
adjacent spaces, which a second normalization pass collapses. -/
theorem C1_counterexample :
    normalizeInstruction (normalizeInstruction "a . b".data) ≠
      normalizeInstruction "a . b".data := by decide

/-- C4: the claim is false for a cached entry whose consecutive-failure
counter is already 2 under maxFailures = 3: a run of exactly maxFailures = 3
markFailure calls returns the flags [true, false, false] — the FIRST call,
not the maxFailures-th, crosses the threshold, so "every earlier call in the
run returns false" fails. -/
theorem C4_counterexample :
    (markFailureRun DEFAULT_CONFIG
        [("/a::x".data,
          ⟨[⟨"#b".data, "click".data, "d".data, none⟩], "r".data, 0, 0, 1, 2⟩)]
        "https://e.com/a".data "x".data 3).1 = [true, false, false] ∧
    ([true, false, false] : List Bool) ≠ List.replicate 2 false ++ [true] := by
  decide

/-- C4 (amended): for maxFailures ≥ 1 and a cached entry whose
consecutive-failure counter is 0 (as `set` and `markSuccess` leave it), a run
of exactly maxFailures consecutive markFailure calls on its exact key deletes
the entry, the threshold-crossing maxFailures-th call alone returns
invalidated = true, every earlier call returns false, and afterwards no entry
remains under that key. -/
theorem C4_threshold_invalidation (cfg : SelectorCacheConfig) (cache : Cache)
    (url ins : Str) (e : CachedSelector)
    (hnd : (cache.map Prod.fst).Nodup)
    (hlook : lookupKey cache (generateCacheKey url ins) = some e)
    (hfc : e.failureCount = 0) (hmax : 1 ≤ cfg.maxFailures) :
    markFailureRun cfg cache url ins cfg.maxFailures =
      (List.replicate (cfg.maxFailures - 1) false ++ [true],
       eraseKey cache (generateCacheKey url ins)) ∧
    lookupKey (markFailureRun cfg cache url ins cfg.maxFailures).2
      (generateCacheKey url ins) = none := by
  have hrun :=
    markFailureRun_invalidates cfg url ins cfg.maxFailures cache e hlook (by omega) hmax
  refine ⟨hrun, ?_⟩
  rw [hrun]
  exact lookupKey_eraseKey_self cache _ hnd

/-- Witness for C4 (amended) at the default configuration and a one-entry
cache holding a fresh entry. -/
theorem C4_threshold_invalidation_witness :
    markFailureRun DEFAULT_CONFIG
        [("/a::x".data,
          ⟨[⟨"#b".data, "click".data, "d".data, none⟩], "r".data, 0, 0, 1, 0⟩)]
        "https://e.com/a".data "x".data DEFAULT_CONFIG.maxFailures =
      (List.replicate (DEFAULT_CONFIG.maxFailures - 1) false ++ [true],
       eraseKey
         [("/a::x".data,
           ⟨[⟨"#b".data, "click".data, "d".data, none⟩], "r".data, 0, 0, 1, 0⟩)]
         (generateCacheKey "https://e.com/a".data "x".data)) ∧
    lookupKey
      (markFailureRun DEFAULT_CONFIG
          [("/a::x".data,
            ⟨[⟨"#b".data, "click".data, "d".data, none⟩], "r".data, 0, 0, 1, 0⟩)]
          "https://e.com/a".data "x".data DEFAULT_CONFIG.maxFailures).2
      (generateCacheKey "https://e.com/a".data "x".data) = none :=
  C4_threshold_invalidation DEFAULT_CONFIG
    [("/a::x".data,
      ⟨[⟨"#b".data, "click".data, "d".data, none⟩], "r".data, 0, 0, 1, 0⟩)]
    "https://e.com/a".data "x".data
    ⟨[⟨"#b".data, "click".data, "d".data, none⟩], "r".data, 0, 0, 1, 0⟩
    (by decide) (by decide) (by decide) (by decide)

/-- C8: markSuccess on a present exact key increments the success counter,
resets the consecutive-failure counter to 0 and refreshes the last-success
timestamp in place; on an absent key it is a no-op; and in the
markFailure-markSuccess-markFailure scenario the counter is back at 1, so
exactly maxFailures - 1 further consecutive failures invalidate the entry
(the last of them alone returning true). -/
theorem C8_markSuccess_semantics (cfg : SelectorCacheConfig) (now : Nat)
    (c1 c2 : Cache) (u1 i1 u2 i2 : Str) (e : CachedSelector)
    (h1 : lookupKey c1 (generateCacheKey u1 i1) = some e)
    (h2 : lookupKey c2 (generateCacheKey u2 i2) = none)
    (hroom : e.failureCount + 1 < cfg.maxFailures) :
    markSuccess cfg now c1 u1 i1 =
      setKey c1 (generateCacheKey u1 i1)
        ⟨e.actions, e.reasoning, e.timestamp, now, e.successCount + 1, 0⟩ ∧
    markSuccess cfg now c2 u2 i2 = c2 ∧
    (markFailure cfg c1 u1 i1).1 = false ∧
    (markFailure cfg (markSuccess cfg now (markFailure cfg c1 u1 i1).2 u1 i1) u1 i1).1
      = false ∧
    lookupKey
      (markFailure cfg (markSuccess cfg now (markFailure cfg c1 u1 i1).2 u1 i1) u1 i1).2
      (generateCacheKey u1 i1) =
      some ⟨e.actions, e.reasoning, e.timestamp, now, e.successCount + 1, 1⟩ ∧
    markFailureRun cfg
      (markFailure cfg (markSuccess cfg now (markFailure cfg c1 u1 i1).2 u1 i1) u1 i1).2
      u1 i1 (cfg.maxFailures - 1) =
      (List.replicate (cfg.maxFailures - 2) false ++ [true],
       eraseKey c1 (generateCacheKey u1 i1)) := by
  have hcond1 : ¬ cfg.maxFailures ≤ e.failureCount + 1 := by omega
  have hstep1 : markFailure cfg c1 u1 i1 =
      (false,
       setKey c1 (generateCacheKey u1 i1)
         ⟨e.actions, e.reasoning, e.timestamp, e.lastSuccess, e.successCount,
          e.failureCount + 1⟩) := by
    simp [markFailure, h1, hcond1]
  have hsucc :
      markSuccess cfg now (markFailure cfg c1 u1 i1).2 u1 i1 =
        setKey
          (setKey c1 (generateCacheKey u1 i1)
            ⟨e.actions, e.reasoning, e.timestamp, e.lastSuccess, e.successCount,
             e.failureCount + 1⟩)
          (generateCacheKey u1 i1)
          ⟨e.actions, e.reasoning, e.timestamp, now, e.successCount + 1, 0⟩ := by
    rw [hstep1]
    simp [markSuccess, lookupKey_setKey_self]
  have hcond2 : ¬ cfg.maxFailures ≤ 0 + 1 := by omega
  have hstep2 :
      markFailure cfg (markSuccess cfg now (markFailure cfg c1 u1 i1).2 u1 i1) u1 i1 =
        (false,
         setKey
           (setKey
             (setKey c1 (generateCacheKey u1 i1)
               ⟨e.actions, e.reasoning, e.timestamp, e.lastSuccess, e.successCount,
                e.failureCount + 1⟩)
             (generateCacheKey u1 i1)
             ⟨e.actions, e.reasoning, e.timestamp, now, e.successCount + 1, 0⟩)
           (generateCacheKey u1 i1)
           ⟨e.actions, e.reasoning, e.timestamp, now, e.successCount + 1, 1⟩) := by
    rw [hsucc]
    simp [markFailure, lookupKey_setKey_self, hcond2]
  have herase :
      eraseKey
        (setKey
          (setKey
            (setKey c1 (generateCacheKey u1 i1)
              ⟨e.actions, e.reasoning, e.timestamp, e.lastSuccess, e.successCount,
               e.failureCount + 1⟩)
            (generateCacheKey u1 i1)
            ⟨e.actions, e.reasoning, e.timestamp, now, e.successCount + 1, 0⟩)
          (generateCacheKey u1 i1)
          ⟨e.actions, e.reasoning, e.timestamp, now, e.successCount + 1, 1⟩)
        (generateCacheKey u1 i1) =
      eraseKey c1 (generateCacheKey u1 i1) := by
    rw [eraseKey_setKey _ _ _ _ (lookupKey_setKey_self _ _ _),
        eraseKey_setKey _ _ _ _ (lookupKey_setKey_self _ _ _),
        eraseKey_setKey _ _ _ _ h1]
  have hrun :=
    markFailureRun_invalidates cfg u1 i1 (cfg.maxFailures - 1)
      (setKey
        (setKey
          (setKey c1 (generateCacheKey u1 i1)
            ⟨e.actions, e.reasoning, e.timestamp, e.lastSuccess, e.successCount,
             e.failureCount + 1⟩)
          (generateCacheKey u1 i1)
          ⟨e.actions, e.reasoning, e.timestamp, now, e.successCount + 1, 0⟩)
        (generateCacheKey u1 i1)
        ⟨e.actions, e.reasoning, e.timestamp, now, e.successCount + 1, 1⟩)
      ⟨e.actions, e.reasoning, e.timestamp, now, e.successCount + 1, 1⟩
      (lookupKey_setKey_self _ _ _) (by simp; omega) (by omega)
  refine ⟨by simp [markSuccess, h1], by simp [markSuccess, h2],
          by rw [hstep1], by rw [hstep2], ?_, ?_⟩
  · rw [hstep2]
    exact lookupKey_setKey_self _ _ _
  · rw [hstep2]
    dsimp only
    rw [hrun, herase]
    have hidx : cfg.maxFailures - 1 - 1 = cfg.maxFailures - 2 := by omega
    rw [hidx]

/-- Witness for C8 at the default configuration: a fresh one-entry cache for
the present-key conjuncts and the empty cache for the no-op conjunct. -/
theorem C8_markSuccess_semantics_witness :
    markSuccess DEFAULT_CONFIG 7
        [("/a::x".data,
          ⟨[⟨"#b".data, "click".data, "d".data, none⟩], "r".data, 0, 0, 1, 0⟩)]
        "https://e.com/a".data "x".data =
      setKey
        [("/a::x".data,
          ⟨[⟨"#b".data, "click".data, "d".data, none⟩], "r".data, 0, 0, 1, 0⟩)]
        (generateCacheKey "https://e.com/a".data "x".data)
        ⟨[⟨"#b".data, "click".data, "d".data, none⟩], "r".data, 0, 7, 2, 0⟩ ∧
    markSuccess DEFAULT_CONFIG 7 [] "https://e.com/a".data "x".data = [] ∧
    (markFailure DEFAULT_CONFIG
        [("/a::x".data,
          ⟨[⟨"#b".data, "click".data, "d".data, none⟩], "r".data, 0, 0, 1, 0⟩)]
        "https://e.com/a".data "x".data).1 = false ∧
    (markFailure DEFAULT_CONFIG
        (markSuccess DEFAULT_CONFIG 7
          (markFailure DEFAULT_CONFIG
            [("/a::x".data,
              ⟨[⟨"#b".data, "click".data, "d".data, none⟩], "r".data, 0, 0, 1, 0⟩)]
            "https://e.com/a".data "x".data).2
          "https://e.com/a".data "x".data)
        "https://e.com/a".data "x".data).1 = false ∧
    lookupKey
      (markFailure DEFAULT_CONFIG
        (markSuccess DEFAULT_CONFIG 7
          (markFailure DEFAULT_CONFIG
            [("/a::x".data,
              ⟨[⟨"#b".data, "click".data, "d".data, none⟩], "r".data, 0, 0, 1, 0⟩)]
            "https://e.com/a".data "x".data).2
          "https://e.com/a".data "x".data)
        "https://e.com/a".data "x".data).2
      (generateCacheKey "https://e.com/a".data "x".data) =
      some ⟨[⟨"#b".data, "click".data, "d".data, none⟩], "r".data, 0, 7, 2, 1⟩ ∧
    markFailureRun DEFAULT_CONFIG
      (markFailure DEFAULT_CONFIG
        (markSuccess DEFAULT_CONFIG 7
          (markFailure DEFAULT_CONFIG
            [("/a::x".data,
              ⟨[⟨"#b".data, "click".data, "d".data, none⟩], "r".data, 0, 0, 1, 0⟩)]
            "https://e.com/a".data "x".data).2
          "https://e.com/a".data "x".data)
        "https://e.com/a".data "x".data).2
      "https://e.com/a".data "x".data (DEFAULT_CONFIG.maxFailures - 1) =
      (List.replicate (DEFAULT_CONFIG.maxFailures - 2) false ++ [true],
       eraseKey
         [("/a::x".data,
           ⟨[⟨"#b".data, "click".data, "d".data, none⟩], "r".data, 0, 0, 1, 0⟩)]
         (generateCacheKey "https://e.com/a".data "x".data)) :=
  C8_markSuccess_semantics DEFAULT_CONFIG 7
    [("/a::x".data,
      ⟨[⟨"#b".data, "click".data, "d".data, none⟩], "r".data, 0, 0, 1, 0⟩)]
    [] "https://e.com/a".data "x".data "https://e.com/a".data "x".data
    ⟨[⟨"#b".data, "click".data, "d".data, none⟩], "r".data, 0, 0, 1, 0⟩
    (by decide) (by decide) (by decide)

theorem fuzzyScan_healthy (cfg : SelectorCacheConfig) (now : Nat) (u q : Str) :
    ∀ (cache : Cache) (e : CachedSelector),
    fuzzyScan cfg now u q cache = some e →
    isExpired cfg now e = false ∧ e.failureCount < cfg.maxFailures := by
  intro cache
  induction cache with
  | nil => intro e h; simp [fuzzyScan] at h
  | cons p r ih =>
    obtain ⟨k, x⟩ := p
    intro e h
    simp only [fuzzyScan] at h
    cases hp : (u ++ [':', ':']).isPrefixOf k with
    | false =>
      rw [hp] at h
      simp only [Bool.not_false, if_true] at h
      exact ih e h
    | true =>
      rw [hp] at h
      simp only [Bool.not_true, Bool.false_eq_true, if_false] at h
      cases hh : (isExpired cfg now x || decide (cfg.maxFailures ≤ x.failureCount)) with
      | true =>
        rw [hh] at h
        simp only [if_true] at h
        exact ih e h
      | false =>
        rw [hh] at h
        simp only [Bool.false_eq_true, if_false] at h
        have hx : isExpired cfg now x = false ∧ x.failureCount < cfg.maxFailures := by
          rcases Bool.or_eq_false_iff.mp hh with ⟨ha, hb⟩
          exact ⟨ha, by simpa using of_decide_eq_false hb⟩
        cases hs : Frac.le cfg.similarityThreshold
            (calculateSimilarity q ((splitOnColons k).getD 1 [])) with
        | true =>
          rw [hs] at h
          simp only [if_true, Option.some.injEq] at h
          subst h
          exact hx
        | false =>
          rw [hs] at h
          simp only [Bool.false_eq_true, if_false] at h
          exact ih e h

/-- C3 (amended): an entry that is expired or at the failure threshold is
never returned by `find`; when the EXACT-key entry is expired or saturated,
`find` eagerly deletes it and reports a miss; but entries examined by the
fuzzy scan are only skipped, never deleted — whenever the exact key misses or
the exact entry is healthy, `find` leaves the cache unchanged (ineligible
fuzzy candidates are removed by `cleanup`, not by the lookup). -/
theorem C3_expiry_and_eager_deletion :
    (∀ (cfg : SelectorCacheConfig) (now : Nat) (cache : Cache) (url ins : Str)
        (e : CachedSelector),
      (find cfg now cache url ins).1 = some e →
      isExpired cfg now e = false ∧ e.failureCount < cfg.maxFailures) ∧
    (∀ (cfg : SelectorCacheConfig) (now : Nat) (cache : Cache) (url ins : Str)
        (e : CachedSelector),
      lookupKey cache (generateCacheKey url ins) = some e →
      (isExpired cfg now e = true ∨ cfg.maxFailures ≤ e.failureCount) →
      find cfg now cache url ins =
        (none, eraseKey cache (generateCacheKey url ins))) ∧
    (∀ (cfg : SelectorCacheConfig) (now : Nat) (cache : Cache) (url ins : Str),
      lookupKey cache (generateCacheKey url ins) = none →
      (find cfg now cache url ins).2 = cache) ∧
    (∀ (cfg : SelectorCacheConfig) (now : Nat) (cache : Cache) (url ins : Str)
        (e : CachedSelector),
      lookupKey cache (generateCacheKey url ins) = some e →
      isExpired cfg now e = false → e.failureCount < cfg.maxFailures →
      find cfg now cache url ins = (some e, cache)) := by
  refine ⟨?_, ?_, ?_, ?_⟩
  · intro cfg now cache url ins e h
    cases hcase : lookupKey cache (generateCacheKey url ins) with
    | none =>
      simp only [find, hcase] at h
      exact fuzzyScan_healthy cfg now _ _ cache e h
    | some x =>
      simp only [find, hcase] at h
      by_cases hx : isExpired cfg now x = true
      · simp [hx] at h
      · rw [Bool.not_eq_true] at hx
        by_cases hf : cfg.maxFailures ≤ x.failureCount
        · simp [hx, hf] at h
        · simp only [hx, Bool.false_eq_true, if_false, hf, if_neg hf,
            Option.some.injEq] at h
          subst h
          exact ⟨hx, by omega⟩
  · intro cfg now cache url ins e hlook hbad
    rcases hbad with hexp | hover
    · simp [find, hlook, hexp]
    · by_cases hexp : isExpired cfg now e = true
      · simp [find, hlook, hexp]
      · rw [Bool.not_eq_true] at hexp
        simp [find, hlook, hexp, hover]
  · intro cfg now cache url ins hnone
    simp [find, hnone]
  · intro cfg now cache url ins e hlook hexp hfail
    have hnotle : ¬ cfg.maxFailures ≤ e.failureCount := by omega
    simp [find, hlook, hexp, hnotle]

/-- Witness for C3 (amended): each conjunct applied at a concrete cache —
a healthy fuzzy hit, an expired exact entry that is deleted, a pure miss that
leaves the cache unchanged, and a healthy exact hit. -/
theorem C3_expiry_and_eager_deletion_witness :
    (isExpired DEFAULT_CONFIG 5
        ⟨[⟨"#b".data, "click".data, "d".data, none⟩], "r".data, 0, 0, 1, 0⟩ = false ∧
      (⟨[⟨"#b".data, "click".data, "d".data, none⟩], "r".data, 0, 0, 1,
        0⟩ : CachedSelector).failureCount < DEFAULT_CONFIG.maxFailures) ∧
    find DEFAULT_CONFIG 86400001
        [("/a::hola mundo".data,
          ⟨[⟨"#b".data, "click".data, "d".data, none⟩], "r".data, 0, 0, 1, 0⟩)]
        "https://e.com/a".data "hola mundo".data =
      (none, []) ∧
    (find DEFAULT_CONFIG 5
        [("/b::hola mundo".data,
          ⟨[⟨"#b".data, "click".data, "d".data, none⟩], "r".data, 0, 0, 1, 0⟩)]
        "https://e.com/a".data "hola mundo".data).2 =
      [("/b::hola mundo".data,
        ⟨[⟨"#b".data, "click".data, "d".data, none⟩], "r".data, 0, 0, 1, 0⟩)] ∧
    find DEFAULT_CONFIG 5
        [("/a::hola mundo".data,
          ⟨[⟨"#b".data, "click".data, "d".data, none⟩], "r".data, 0, 0, 1, 0⟩)]
        "https://e.com/a".data "hola mundo".data =
      (some ⟨[⟨"#b".data, "click".data, "d".data, none⟩], "r".data, 0, 0, 1, 0⟩,
       [("/a::hola mundo".data,
         ⟨[⟨"#b".data, "click".data, "d".data, none⟩], "r".data, 0, 0, 1, 0⟩)]) :=
  ⟨C3_expiry_and_eager_deletion.1 DEFAULT_CONFIG 5
      [("/a::hola mundo".data,
        ⟨[⟨"#b".data, "click".data, "d".data, none⟩], "r".data, 0, 0, 1, 0⟩)]
      "https://e.com/a".data "hola mundo".data
      ⟨[⟨"#b".data, "click".data, "d".data, none⟩], "r".data, 0, 0, 1, 0⟩
      (by decide),
   C3_expiry_and_eager_deletion.2.1 DEFAULT_CONFIG 86400001
      [("/a::hola mundo".data,
        ⟨[⟨"#b".data, "click".data, "d".data, none⟩], "r".data, 0, 0, 1, 0⟩)]
      "https://e.com/a".data "hola mundo".data
      ⟨[⟨"#b".data, "click".data, "d".data, none⟩], "r".data, 0, 0, 1, 0⟩
      (by decide) (Or.inl (by decide)),
   C3_expiry_and_eager_deletion.2.2.1 DEFAULT_CONFIG 5
      [("/b::hola mundo".data,
        ⟨[⟨"#b".data, "click".data, "d".data, none⟩], "r".data, 0, 0, 1, 0⟩)]
      "https://e.com/a".data "hola mundo".data (by decide),
   C3_expiry_and_eager_deletion.2.2.2 DEFAULT_CONFIG 5
      [("/a::hola mundo".data,
        ⟨[⟨"#b".data, "click".data, "d".data, none⟩], "r".data, 0, 0, 1, 0⟩)]
      "https://e.com/a".data "hola mundo".data
      ⟨[⟨"#b".data, "click".data, "d".data, none⟩], "r".data, 0, 0, 1, 0⟩
      (by decide) (by decide) (by decide)⟩

/-- C3: the eager-deletion half of the claim is false for entries examined by
the fuzzy scan: here the only entry shares the query's page pattern (the scan
examines it), is expired, yet after `find` returns the miss the entry is
still in the cache. -/
theorem C3_counterexample :
    ((extractUrlPattern "https://e.com/a".data ++ [':', ':']).isPrefixOf
        "/a::otra cosa distinta".data) = true ∧
    isExpired DEFAULT_CONFIG 86400001
      ⟨[⟨"#b".data, "click".data, "d".data, none⟩], "r".data, 0, 0, 1, 0⟩ = true ∧
    find DEFAULT_CONFIG 86400001
        [("/a::otra cosa distinta".data,
          ⟨[⟨"#b".data, "click".data, "d".data, none⟩], "r".data, 0, 0, 1, 0⟩)]
        "https://e.com/a".data "algo diferente aqui".data =
      (none,
       [("/a::otra cosa distinta".data,
         ⟨[⟨"#b".data, "click".data, "d".data, none⟩], "r".data, 0, 0, 1, 0⟩)]) := by
  decide

/-- C6: when the exact key holds a non-expired, under-threshold entry, `find`
returns that entry (and leaves the cache unchanged) no matter what
fuzzy-eligible entries — here explicitly hypothesised to exist at or above the
similarity threshold — the cache also contains. -/
theorem C6_exact_match_precedence (cfg : SelectorCacheConfig) (now : Nat)
    (cache : Cache) (url ins : Str) (e : CachedSelector)
    (hexact : lookupKey cache (generateCacheKey url ins) = some e)
    (hfresh : isExpired cfg now e = false)
    (hfail : e.failureCount < cfg.maxFailures)
    (k2 : Str) (e2 : CachedSelector)
    (hmem : (k2, e2) ∈ cache)
    (hk2 : k2 ≠ generateCacheKey url ins)
    (hpat : (extractUrlPattern url ++ [':', ':']).isPrefixOf k2 = true)
    (hfresh2 : isExpired cfg now e2 = false)
    (hfail2 : e2.failureCount < cfg.maxFailures)
    (hsim : Frac.le cfg.similarityThreshold
      (calculateSimilarity (normalizeInstruction ins)
        ((splitOnColons k2).getD 1 [])) = true) :
    find cfg now cache url ins = (some e, cache) := by
  have hnotle : ¬ cfg.maxFailures ≤ e.failureCount := by omega
  simp [find, hexact, hfresh, hnotle]

/-- Witness for C6: a cache holding the exact entry first and a distinct
fuzzy-eligible entry (same pattern, similarity 1) second. -/
theorem C6_exact_match_precedence_witness :
    find DEFAULT_CONFIG 5
        [("/a::hola mundo".data,
          ⟨[⟨"#b".data, "click".data, "d".data, none⟩], "r".data, 0, 0, 1, 0⟩),
         ("/a::hola mundo ya".data,
          ⟨[⟨"#c".data, "fill".data, "d2".data, some "v".data⟩], "r2".data, 0, 0, 1, 0⟩)]
        "https://e.com/a".data "hola mundo".data =
      (some ⟨[⟨"#b".data, "click".data, "d".data, none⟩], "r".data, 0, 0, 1, 0⟩,
       [("/a::hola mundo".data,
         ⟨[⟨"#b".data, "click".data, "d".data, none⟩], "r".data, 0, 0, 1, 0⟩),
        ("/a::hola mundo ya".data,
         ⟨[⟨"#c".data, "fill".data, "d2".data, some "v".data⟩], "r2".data, 0, 0, 1,
          0⟩)]) :=
  C6_exact_match_precedence DEFAULT_CONFIG 5
    [("/a::hola mundo".data,
      ⟨[⟨"#b".data, "click".data, "d".data, none⟩], "r".data, 0, 0, 1, 0⟩),
     ("/a::hola mundo ya".data,
      ⟨[⟨"#c".data, "fill".data, "d2".data, some "v".data⟩], "r2".data, 0, 0, 1, 0⟩)]
    "https://e.com/a".data "hola mundo".data
    ⟨[⟨"#b".data, "click".data, "d".data, none⟩], "r".data, 0, 0, 1, 0⟩
    (by decide) (by decide) (by decide)
    "/a::hola mundo ya".data
    ⟨[⟨"#c".data, "fill".data, "d2".data, some "v".data⟩], "r2".data, 0, 0, 1, 0⟩
    (by decide) (by decide) (by decide) (by decide) (by decide) (by decide)

/-- C9: a locator hint whose extracted id token matches the ephemeral-id
pattern never resolves through the id strategy — the strategy yields nothing
even when an element with exactly that id exists on the page. -/
theorem C9_ephemeral_id_exclusion (page : PageModel) (description id : Str)
    (hx : extractId description = some id)
    (hdyn : isDynamicReactId id = true) :
    idStrategy page description = none := by
  simp [idStrategy, hx, hdyn]

/-- Witness for C9: the hint `id=':r12:'` on a page that does have an element
with id `:r12:`. -/
theorem C9_ephemeral_id_exclusion_witness :
    extractId "id=\x27:r12:\x27".data = some ":r12:".data ∧
    isDynamicReactId ":r12:".data = true ∧
    (PageModel.mk (fun s => s == ":r12:".data)).hasId ":r12:".data = true ∧
    idStrategy (PageModel.mk (fun s => s == ":r12:".data)) "id=\x27:r12:\x27".data = none :=
  ⟨by decide, by decide, by decide,
   C9_ephemeral_id_exclusion (PageModel.mk (fun s => s == ":r12:".data))
     "id=\x27:r12:\x27".data ":r12:".data (by decide) (by decide)⟩

/-- C5: evaluation of the coordinator model at the failing input.  The page
stood on /home when `execute` was called for /login; the cache held a healthy
entry for ("/login", "entrar") whose plan fails to execute, and the replan
also fails.  The replan machinery fires exactly as the claim says (replan
triggered, one model call with the cache skipped, the new plan executed once,
the failure propagated), BUT the `invalidate` — issued against
`executionUrl = this.page.url() || url` captured BEFORE the navigation —
targets key "/home::entrar" and leaves the producing entry "/login::entrar"
untouched; the subsequent `markFailure` misses the same way, and the failed
replanned plan is then re-cached under the producing key with fresh counters.
The second evaluation shows a not-from-cache failure propagating with no
replan, as claimed. -/
theorem C5_misskeyed_invalidation_eval :
    (executeStep DEFAULT_CONFIG 5 true
        [("/login::entrar".data,
          ⟨[⟨"#viejo".data, "click".data, "d".data, none⟩], "r".data, 0, 0, 1, 0⟩)]
        "https://site/home".data "https://site/login".data "Entrar!".data
        ⟨[⟨"click".data, "d".data, "#a".data, none⟩], "x".data, false, false⟩
        ⟨[⟨"click".data, "d2".data, "#nuevo".data, none⟩], "nuevo".data, false, false⟩
        true true).replanned = true ∧
    (executeStep DEFAULT_CONFIG 5 true
        [("/login::entrar".data,
          ⟨[⟨"#viejo".data, "click".data, "d".data, none⟩], "r".data, 0, 0, 1, 0⟩)]
        "https://site/home".data "https://site/login".data "Entrar!".data
        ⟨[⟨"click".data, "d".data, "#a".data, none⟩], "x".data, false, false⟩
        ⟨[⟨"click".data, "d2".data, "#nuevo".data, none⟩], "nuevo".data, false, false⟩
        true true).invalidateCalled = true ∧
    (executeStep DEFAULT_CONFIG 5 true
        [("/login::entrar".data,
          ⟨[⟨"#viejo".data, "click".data, "d".data, none⟩], "r".data, 0, 0, 1, 0⟩)]
        "https://site/home".data "https://site/login".data "Entrar!".data
        ⟨[⟨"click".data, "d".data, "#a".data, none⟩], "x".data, false, false⟩
        ⟨[⟨"click".data, "d2".data, "#nuevo".data, none⟩], "nuevo".data, false, false⟩
        true true).llmCalls = 1 ∧
    (executeStep DEFAULT_CONFIG 5 true
        [("/login::entrar".data,
          ⟨[⟨"#viejo".data, "click".data, "d".data, none⟩], "r".data, 0, 0, 1, 0⟩)]
        "https://site/home".data "https://site/login".data "Entrar!".data
        ⟨[⟨"click".data, "d".data, "#a".data, none⟩], "x".data, false, false⟩
        ⟨[⟨"click".data, "d2".data, "#nuevo".data, none⟩], "nuevo".data, false, false⟩
        true true).success = false ∧
    (executeStep DEFAULT_CONFIG 5 true
        [("/login::entrar".data,
          ⟨[⟨"#viejo".data, "click".data, "d".data, none⟩], "r".data, 0, 0, 1, 0⟩)]
        "https://site/home".data "https://site/login".data "Entrar!".data
        ⟨[⟨"click".data, "d".data, "#a".data, none⟩], "x".data, false, false⟩
        ⟨[⟨"click".data, "d2".data, "#nuevo".data, none⟩], "nuevo".data, false, false⟩
        true true).cacheAfterInvalidate =
      some
        [("/login::entrar".data,
          ⟨[⟨"#viejo".data, "click".data, "d".data, none⟩], "r".data, 0, 0, 1, 0⟩)] ∧
    lookupKey
      (executeStep DEFAULT_CONFIG 5 true
        [("/login::entrar".data,
          ⟨[⟨"#viejo".data, "click".data, "d".data, none⟩], "r".data, 0, 0, 1, 0⟩)]
        "https://site/home".data "https://site/login".data "Entrar!".data
        ⟨[⟨"click".data, "d".data, "#a".data, none⟩], "x".data, false, false⟩
        ⟨[⟨"click".data, "d2".data, "#nuevo".data, none⟩], "nuevo".data, false, false⟩
        true true).finalCache
      "/login::entrar".data =
      some ⟨[⟨"#nuevo".data, "click".data, "d2".data, none⟩], "nuevo".data, 5, 5, 1, 0⟩ ∧
    (executeStep DEFAULT_CONFIG 5 true []
        "https://site/home".data "https://site/login".data "Entrar!".data
        ⟨[⟨"click".data, "d".data, "#a".data, none⟩], "x".data, false, false⟩
        ⟨[⟨"click".data, "d2".data, "#nuevo".data, none⟩], "nuevo".data, false, false⟩
        true true).replanned = false ∧
    (executeStep DEFAULT_CONFIG 5 true []
        "https://site/home".data "https://site/login".data "Entrar!".data
        ⟨[⟨"click".data, "d".data, "#a".data, none⟩], "x".data, false, false⟩
        ⟨[⟨"click".data, "d2".data, "#nuevo".data, none⟩], "nuevo".data, false, false⟩
        true true).success = false ∧
    (executeStep DEFAULT_CONFIG 5 true []
        "https://site/home".data "https://site/login".data "Entrar!".data
        ⟨[⟨"click".data, "d".data, "#a".data, none⟩], "x".data, false, false⟩
        ⟨[⟨"click".data, "d2".data, "#nuevo".data, none⟩], "nuevo".data, false, false⟩
        true true).llmCalls = 1 := by
  decide

theorem splitOnColons_ne_nil : ∀ s : Str, splitOnColons s ≠ []
  | [] => by simp [splitOnColons]
  | [c] => by simp [splitOnColons]
  | c :: c2 :: r => by
    simp only [splitOnColons]
    by_cases h : c = ':' ∧ c2 = ':'
    · simp [h]
    · rw [if_neg h]
      rcases hs : splitOnColons (c2 :: r) with _ | ⟨a, t⟩ <;> simp

theorem containsCC_cons (c : Char) (r : Str) (h : containsCC (c :: r) = false) :
    containsCC r = false := by
  cases r with
  | nil => rfl
  | cons d r2 =>
    simp only [containsCC, Bool.or_eq_false_iff] at h
    exact h.2

theorem getLast?_tail_ne (c : Char) (r : Str) (h : (c :: r).getLast? ≠ some ':')
    (hr : r ≠ []) : r.getLast? ≠ some ':' := by
  cases r with
  | nil => exact absurd rfl hr
  | cons d r2 => rw [List.getLast?_cons_cons] at h; exact h

theorem splitOnColons_append (t : Str) :
    ∀ p : Str, containsCC p = false → p.getLast? ≠ some ':' →
    splitOnColons (p ++ ':' :: ':' :: t) = p :: splitOnColons t
  | [], _, _ => by simp [splitOnColons]
  | [c], _, hl => by
    have hc : c ≠ ':' := fun h1 => hl (by simp [h1])
    simp [splitOnColons, hc]
  | c :: c2 :: p', hcc, hl => by
    have hcn : ¬(c = ':' ∧ c2 = ':') := by
      rintro ⟨h1, h2⟩
      simp [containsCC, h1, h2] at hcc
    have ih :=
      splitOnColons_append t (c2 :: p') (containsCC_cons c (c2 :: p') hcc)
        (getLast?_tail_ne c (c2 :: p') hl (by simp))
    have hs : splitOnColons (c :: c2 :: (p' ++ ':' :: ':' :: t)) =
        match splitOnColons (c2 :: (p' ++ ':' :: ':' :: t)) with
        | [] => [[c]]
        | h :: t2 => (c :: h) :: t2 := by
      simp only [splitOnColons]
      rw [if_neg hcn]
    show splitOnColons (c :: (c2 :: (p' ++ ':' :: ':' :: t))) =
      (c :: c2 :: p') :: splitOnColons t
    rw [hs]
    have halign : c2 :: (p' ++ ':' :: ':' :: t) = (c2 :: p') ++ ':' :: ':' :: t := rfl
    rw [halign, ih]

theorem splitOnColons_of_not_mem : ∀ s : Str, ':' ∉ s → splitOnColons s = [s]
  | [], _ => rfl
  | [c], _ => rfl
  | c :: c2 :: r, h => by
    have hcn : ¬(c = ':' ∧ c2 = ':') := by
      rintro ⟨h1, -⟩
      exact h (by simp [h1])
    have ih : splitOnColons (c2 :: r) = [c2 :: r] :=
      splitOnColons_of_not_mem (c2 :: r) (fun hm => h (List.mem_cons_of_mem c hm))
    simp only [splitOnColons]
    rw [if_neg hcn, ih]

theorem goodKey_prefix_iff (ins : Str) (hins : ':' ∉ ins) :
    ∀ (u p : Str), containsCC u = false → u.getLast? ≠ some ':' →
      containsCC p = false → p.getLast? ≠ some ':' →
      ((u ++ [':', ':']).isPrefixOf (p ++ ':' :: ':' :: ins) = true ↔ u = p)
  | [], [], _, _, _, _ => by
    simp [List.isPrefixOf]
  | [], c :: p', _, _, hpc, hpl => by
    simp only [List.nil_append, List.cons_append]
    constructor
    · intro h
      exfalso
      cases p' with
      | nil =>
        simp only [List.nil_append, List.isPrefixOf, Bool.and_eq_true, beq_iff_eq] at h
        exact hpl (by simp [h.1.symm])
      | cons d p'' =>
        simp only [List.cons_append, List.isPrefixOf, Bool.and_eq_true, beq_iff_eq] at h
        have : c = ':' ∧ d = ':' := ⟨h.1.symm, h.2.1.symm⟩
        simp [containsCC, this.1, this.2] at hpc
    · intro h
      exact absurd h (by simp)
  | a :: u', [], huc, hul, _, _ => by
    simp only [List.cons_append, List.nil_append]
    constructor
    · intro h
      exfalso
      cases u' with
      | nil =>
        simp only [List.nil_append, List.isPrefixOf, Bool.and_eq_true, beq_iff_eq] at h
        exact hul (by simp [h.1])
      | cons b u'' =>
        simp only [List.cons_append, List.isPrefixOf, Bool.and_eq_true, beq_iff_eq] at h
        have : a = ':' ∧ b = ':' := ⟨h.1, h.2.1⟩
        simp [containsCC, this.1, this.2] at huc
    · intro h
      exact absurd h (by simp)
  | a :: u', c :: p', huc, hul, hpc, hpl => by
    have hstep : ((a :: u' ++ [':', ':']).isPrefixOf (c :: p' ++ ':' :: ':' :: ins)) =
        ((a == c) && (u' ++ [':', ':']).isPrefixOf (p' ++ ':' :: ':' :: ins)) := by
      simp [List.isPrefixOf]
    rw [hstep]
    by_cases hu'e : u' = []
    · by_cases hp'e : p' = []
      · subst hu'e; subst hp'e
        simp only [List.nil_append]
        have hb : ([':', ':']).isPrefixOf (':' :: ':' :: ins) = true := by
          simp [List.isPrefixOf]
        rw [Bool.and_eq_true, beq_iff_eq]
        constructor
        · rintro ⟨h1, -⟩; simp [h1]
        · intro h
          simp only [List.cons.injEq] at h
          exact ⟨h.1, hb⟩
      · have ih := goodKey_prefix_iff ins hins u' p'
          (containsCC_cons a u' huc)
          (by cases u' with
              | nil => simp
              | cons b u'' => exact getLast?_tail_ne a (b :: u'') hul (by simp))
          (containsCC_cons c p' hpc)
          (by cases p' with
              | nil => simp
              | cons d p'' => exact getLast?_tail_ne c (d :: p'') hpl (by simp))
        rw [Bool.and_eq_true, beq_iff_eq, ih]
        constructor
        · rintro ⟨h1, h2⟩; rw [h1, h2]
        · intro h
          simp only [List.cons.injEq] at h
          exact ⟨h.1, h.2⟩
    · have ih := goodKey_prefix_iff ins hins u' p'
        (containsCC_cons a u' huc)
        (by cases u' with
            | nil => exact absurd rfl hu'e
            | cons b u'' => exact getLast?_tail_ne a (b :: u'') hul (by simp))
        (containsCC_cons c p' hpc)
        (by cases p' with
            | nil => simp
            | cons d p'' => exact getLast?_tail_ne c (d :: p'') hpl (by simp))
      rw [Bool.and_eq_true, beq_iff_eq, ih]
      constructor
      · rintro ⟨h1, h2⟩; rw [h1, h2]
      · intro h
        simp only [List.cons.injEq] at h
        exact ⟨h.1, h.2⟩

theorem find?_ext {α : Type} (p q : α → Bool) :
    ∀ l : List α, (∀ a ∈ l, p a = q a) → l.find? p = l.find? q
  | [], _ => rfl
  | a :: l, h => by
    have ha := h a (List.mem_cons_self a l)
    cases hq : q a with
    | true =>
      rw [List.find?_cons_of_pos _ (ha.trans hq), List.find?_cons_of_pos _ hq]
    | false =>
      rw [List.find?_cons_of_neg _ (by simp [ha, hq]),
          List.find?_cons_of_neg _ (by simp [hq])]
      exact find?_ext p q l (fun b hb => h b (List.mem_cons_of_mem a hb))

theorem fuzzyScan_itemsCache (cfg : SelectorCacheConfig) (now : Nat) (u q : Str)
    (hu1 : containsCC u = false) (hu2 : u.getLast? ≠ some ':') :
    ∀ items : List (Str × Str × CachedSelector),
    (∀ t ∈ items, containsCC t.1 = false ∧ t.1.getLast? ≠ some ':' ∧ ':' ∉ t.2.1) →
    fuzzyScan cfg now u q (itemsCache items) =
      (items.find? (fun t =>
        decide (t.1 = u) && !isExpired cfg now t.2.2 &&
        decide (t.2.2.failureCount < cfg.maxFailures) &&
        Frac.le cfg.similarityThreshold (calculateSimilarity q t.2.1))).map
        (fun t => t.2.2)
  | [], _ => rfl
  | t :: items, hwf => by
    obtain ⟨p, ins, e⟩ := t
    obtain ⟨hpc, hpl, hpi⟩ := hwf (p, ins, e) (List.mem_cons_self _ _)
    have ih := fuzzyScan_itemsCache cfg now u q hu1 hu2 items
      (fun t2 ht2 => hwf t2 (List.mem_cons_of_mem _ ht2))
    have hcache : itemsCache ((p, ins, e) :: items) =
        (p ++ ':' :: ':' :: ins, e) :: itemsCache items := by
      simp [itemsCache, List.append_assoc]
    have hsplit : (splitOnColons (p ++ ':' :: ':' :: ins)).getD 1 [] = ins := by
      rw [splitOnColons_append ins p hpc hpl, splitOnColons_of_not_mem ins hpi]
      rfl
    have hpref := goodKey_prefix_iff ins hpi u p hu1 hu2 hpc hpl
    rw [hcache]
    by_cases hup : u = p
    · have hpt : (u ++ [':', ':']).isPrefixOf (p ++ ':' :: ':' :: ins) = true :=
        hpref.mpr hup
      simp only [fuzzyScan, hpt, Bool.not_true, Bool.false_eq_true, if_false]
      cases hh : (isExpired cfg now e || decide (cfg.maxFailures ≤ e.failureCount)) with
      | true =>
        rw [if_pos rfl, ih]
        have hval : (decide (p = u) && !isExpired cfg now e &&
            decide (e.failureCount < cfg.maxFailures) &&
            Frac.le cfg.similarityThreshold (calculateSimilarity q ins)) = false := by
          rcases Bool.or_eq_true_iff.mp hh with hexp | hsat
          · simp [hexp]
          · have hge : ¬ e.failureCount < cfg.maxFailures := by
              have := of_decide_eq_true hsat; omega
            simp [hge]
        simp only [List.find?_cons, hval]
      | false =>
        rw [if_neg Bool.false_ne_true]
        have hexp : isExpired cfg now e = false := (Bool.or_eq_false_iff.mp hh).1
        have hsat : e.failureCount < cfg.maxFailures := by
          have := of_decide_eq_false (Bool.or_eq_false_iff.mp hh).2; omega
        rw [hsplit]
        cases hsim : Frac.le cfg.similarityThreshold (calculateSimilarity q ins) with
        | true =>
          rw [if_pos rfl]
          have hval : (decide (p = u) && !isExpired cfg now e &&
              decide (e.failureCount < cfg.maxFailures) &&
              Frac.le cfg.similarityThreshold (calculateSimilarity q ins)) = true := by
            simp [hup.symm, hexp, hsat, hsim]
          simp only [List.find?_cons, hval]
          rfl
        | false =>
          rw [if_neg Bool.false_ne_true, ih]
          have hval : (decide (p = u) && !isExpired cfg now e &&
              decide (e.failureCount < cfg.maxFailures) &&
              Frac.le cfg.similarityThreshold (calculateSimilarity q ins)) = false := by
            simp [hsim]
          simp only [List.find?_cons, hval]
    · have hpt : (u ++ [':', ':']).isPrefixOf (p ++ ':' :: ':' :: ins) = false := by
        cases hx : (u ++ [':', ':']).isPrefixOf (p ++ ':' :: ':' :: ins) with
        | true => exact absurd (hpref.mp hx) hup
        | false => rfl
      simp only [fuzzyScan, hpt, Bool.not_false, if_true]
      rw [ih]
      have hval : (decide (p = u) && !isExpired cfg now e &&
          decide (e.failureCount < cfg.maxFailures) &&
          Frac.le cfg.similarityThreshold (calculateSimilarity q ins)) = false := by
        have hne : p ≠ u := fun hh => hup hh.symm
        simp [hne]
      simp only [List.find?_cons, hval]

/-- C7 (amended): when the exact key is absent, `find` scans the entries in
order, keeps only those whose key starts with the query's page pattern
followed by "::" and that are neither expired nor at the failure threshold,
and returns the first whose Dice similarity — computed between the normalized
query instruction and the key segment between the first and second "::" — is
at or above similarityThreshold (0.85 = 85/100 in the default configuration),
or none when no entry qualifies, leaving the cache unchanged.  For caches
whose page patterns contain no "::" and do not end in ':' (hypotheses below),
that key segment IS the stored normalized instruction, which is the claim's
wording; the counterexample shows the claim fails without this proviso. -/
theorem C7_fuzzy_scan (cfg : SelectorCacheConfig) (now : Nat)
    (items : List (Str × Str × CachedSelector)) (url ins : Str)
    (hu1 : containsCC (extractUrlPattern url) = false)
    (hu2 : (extractUrlPattern url).getLast? ≠ some ':')
    (hitems : ∀ t ∈ items,
      containsCC t.1 = false ∧ t.1.getLast? ≠ some ':' ∧ ':' ∉ t.2.1)
    (hmiss : lookupKey (itemsCache items) (generateCacheKey url ins) = none) :
    find cfg now (itemsCache items) url ins =
      ((items.find? (fun t =>
          decide (t.1 = extractUrlPattern url) && !isExpired cfg now t.2.2 &&
          decide (t.2.2.failureCount < cfg.maxFailures) &&
          Frac.le cfg.similarityThreshold
            (calculateSimilarity (normalizeInstruction ins) t.2.1))).map
        (fun t => t.2.2),
       itemsCache items) := by
  have hscan := fuzzyScan_itemsCache cfg now (extractUrlPattern url)
    (normalizeInstruction ins) hu1 hu2 items hitems
  simp only [find, hmiss, hscan]

/-- Witness for C7 (amended): four entries — wrong pattern, low similarity,
similarity 1, similarity 1 again — the scan returns the first eligible one at
or above the threshold (the third). -/
theorem C7_fuzzy_scan_witness :
    find DEFAULT_CONFIG 5
      (itemsCache
        [("/b".data, "hola mundo".data,
          ⟨[⟨"#1".data, "click".data, "d1".data, none⟩], "r1".data, 0, 0, 1, 0⟩),
         ("/a".data, "otro texto aqui".data,
          ⟨[⟨"#2".data, "click".data, "d2".data, none⟩], "r2".data, 0, 0, 1, 0⟩),
         ("/a".data, "hola mundo ya".data,
          ⟨[⟨"#3".data, "click".data, "d3".data, none⟩], "r3".data, 0, 0, 1, 0⟩),
         ("/a".data, "hola mundo si".data,
          ⟨[⟨"#4".data, "click".data, "d4".data, none⟩], "r4".data, 0, 0, 1, 0⟩)])
      "https://e.com/a".data "Hola, Mundo".data =
      (([("/b".data, "hola mundo".data,
          ⟨[⟨"#1".data, "click".data, "d1".data, none⟩], "r1".data, 0, 0, 1, 0⟩),
         ("/a".data, "otro texto aqui".data,
          ⟨[⟨"#2".data, "click".data, "d2".data, none⟩], "r2".data, 0, 0, 1, 0⟩),
         ("/a".data, "hola mundo ya".data,
          ⟨[⟨"#3".data, "click".data, "d3".data, none⟩], "r3".data, 0, 0, 1, 0⟩),
         ("/a".data, "hola mundo si".data,
          ⟨[⟨"#4".data, "click".data, "d4".data, none⟩], "r4".data, 0, 0, 1, 0⟩)].find?
          (fun t =>
            decide (t.1 = extractUrlPattern "https://e.com/a".data) &&
            !isExpired DEFAULT_CONFIG 5 t.2.2 &&
            decide (t.2.2.failureCount < DEFAULT_CONFIG.maxFailures) &&
            Frac.le DEFAULT_CONFIG.similarityThreshold
              (calculateSimilarity (normalizeInstruction "Hola, Mundo".data) t.2.1))).map
        (fun t => t.2.2),
       itemsCache
        [("/b".data, "hola mundo".data,
          ⟨[⟨"#1".data, "click".data, "d1".data, none⟩], "r1".data, 0, 0, 1, 0⟩),
         ("/a".data, "otro texto aqui".data,
          ⟨[⟨"#2".data, "click".data, "d2".data, none⟩], "r2".data, 0, 0, 1, 0⟩),
         ("/a".data, "hola mundo ya".data,
          ⟨[⟨"#3".data, "click".data, "d3".data, none⟩], "r3".data, 0, 0, 1, 0⟩),
         ("/a".data, "hola mundo si".data,
          ⟨[⟨"#4".data, "click".data, "d4".data, none⟩], "r4".data, 0, 0, 1, 0⟩)]) :=
  C7_fuzzy_scan DEFAULT_CONFIG 5
    [("/b".data, "hola mundo".data,
      ⟨[⟨"#1".data, "click".data, "d1".data, none⟩], "r1".data, 0, 0, 1, 0⟩),
     ("/a".data, "otro texto aqui".data,
      ⟨[⟨"#2".data, "click".data, "d2".data, none⟩], "r2".data, 0, 0, 1, 0⟩),
     ("/a".data, "hola mundo ya".data,
      ⟨[⟨"#3".data, "click".data, "d3".data, none⟩], "r3".data, 0, 0, 1, 0⟩),
     ("/a".data, "hola mundo si".data,
      ⟨[⟨"#4".data, "click".data, "d4".data, none⟩], "r4".data, 0, 0, 1, 0⟩)]
    "https://e.com/a".data "Hola, Mundo".data
    (by decide) (by decide) (by decide) (by decide)

/-- C7: as stated the claim is false.  The legal pathname "/x::y" puts a "::"
inside the page pattern, so the fuzzy scan's `key.split('::')[1]` is "y" — a
fragment of the pattern, not the stored instruction: `find` returns the entry
stored for "hello world foo" on the query "is" although the Dice similarity
between the two instructions is 0, far below the threshold (both the exact
key for the query and any qualifying entry being absent, the claim demands
none). -/
theorem C7_counterexample :
    lookupKey
      (set DEFAULT_CONFIG 0 [] "https://h/x::y".data "hello world foo".data
        [⟨"#b".data, "click".data, "d".data, none⟩] "r".data)
      (generateCacheKey "https://h/x::y".data "is".data) = none ∧
    (find DEFAULT_CONFIG 0
        (set DEFAULT_CONFIG 0 [] "https://h/x::y".data "hello world foo".data
          [⟨"#b".data, "click".data, "d".data, none⟩] "r".data)
        "https://h/x::y".data "is".data).1 =
      some ⟨[⟨"#b".data, "click".data, "d".data, none⟩], "r".data, 0, 0, 1, 0⟩ ∧
    Frac.le DEFAULT_CONFIG.similarityThreshold
      (calculateSimilarity (normalizeInstruction "is".data)
        (normalizeInstruction "hello world foo".data)) = false := by
  decide

/-- C10 (amended): the Dice similarity is 1 (= 1/1) when both filtered word
sets are empty and 0 (= 0/1) when exactly one is empty; consequently, for a
query instruction whose normalized form has only words of length ≤ 2 and a
threshold strictly between 0 and 1 (hypotheses ht1/ht0, satisfied by the
default 0.85), a missed exact lookup returns the first same-pattern,
non-expired, under-threshold entry whose stored instruction also has only
words of length ≤ 2, regardless of the two instructions' text — provided the
page patterns are "::"-free and do not end in ':' (the C7 counterexample's
proviso). -/
theorem C10_empty_word_sets (cfg : SelectorCacheConfig) (now : Nat)
    (items : List (Str × Str × CachedSelector)) (url ins : Str)
    (ht1 : Frac.le cfg.similarityThreshold ⟨1, 1⟩ = true)
    (ht0 : Frac.le cfg.similarityThreshold ⟨0, 1⟩ = false)
    (hu1 : containsCC (extractUrlPattern url) = false)
    (hu2 : (extractUrlPattern url).getLast? ≠ some ':')
    (hitems : ∀ t ∈ items,
      containsCC t.1 = false ∧ t.1.getLast? ≠ some ':' ∧ ':' ∉ t.2.1)
    (hmiss : lookupKey (itemsCache items) (generateCacheKey url ins) = none)
    (hq : wordSet (normalizeInstruction ins) = []) :
    (∀ s1 s2 : Str, wordSet s1 = [] → wordSet s2 = [] →
       calculateSimilarity s1 s2 = ⟨1, 1⟩) ∧
    (∀ s1 s2 : Str, wordSet s1 = [] → wordSet s2 ≠ [] →
       calculateSimilarity s1 s2 = ⟨0, 1⟩) ∧
    (∀ s1 s2 : Str, wordSet s1 ≠ [] → wordSet s2 = [] →
       calculateSimilarity s1 s2 = ⟨0, 1⟩) ∧
    find cfg now (itemsCache items) url ins =
      ((items.find? (fun t =>
          decide (t.1 = extractUrlPattern url) && !isExpired cfg now t.2.2 &&
          decide (t.2.2.failureCount < cfg.maxFailures) &&
          (wordSet t.2.1).isEmpty)).map (fun t => t.2.2),
       itemsCache items) := by
  have hsim1 : ∀ s1 s2 : Str, wordSet s1 = [] → wordSet s2 = [] →
      calculateSimilarity s1 s2 = ⟨1, 1⟩ := by
    intro s1 s2 h1 h2
    simp [calculateSimilarity, h1, h2]
  have hsim2 : ∀ s1 s2 : Str, wordSet s1 = [] → wordSet s2 ≠ [] →
      calculateSimilarity s1 s2 = ⟨0, 1⟩ := by
    intro s1 s2 h1 h2
    simp [calculateSimilarity, h1, List.length_eq_zero, h2]
  have hsim3 : ∀ s1 s2 : Str, wordSet s1 ≠ [] → wordSet s2 = [] →
      calculateSimilarity s1 s2 = ⟨0, 1⟩ := by
    intro s1 s2 h1 h2
    simp [calculateSimilarity, h2, List.length_eq_zero, h1]
  have hscan := fuzzyScan_itemsCache cfg now (extractUrlPattern url)
    (normalizeInstruction ins) hu1 hu2 items hitems
  have hext :
      items.find? (fun t =>
        decide (t.1 = extractUrlPattern url) && !isExpired cfg now t.2.2 &&
        decide (t.2.2.failureCount < cfg.maxFailures) &&
        Frac.le cfg.similarityThreshold
          (calculateSimilarity (normalizeInstruction ins) t.2.1)) =
      items.find? (fun t =>
        decide (t.1 = extractUrlPattern url) && !isExpired cfg now t.2.2 &&
        decide (t.2.2.failureCount < cfg.maxFailures) &&
        (wordSet t.2.1).isEmpty) := by
    refine find?_ext _ _ items ?_
    intro t ht
    by_cases hw : wordSet t.2.1 = []
    · have hie : (wordSet t.2.1).isEmpty = true := by simp [hw]
      rw [hsim1 _ _ hq hw, ht1, hie]
    · have hie : (wordSet t.2.1).isEmpty = false := by
        cases hwc : wordSet t.2.1 with
        | nil => exact absurd hwc hw
        | cons a l => rfl
      rw [hsim2 _ _ hq hw, ht0, hie]
  refine ⟨hsim1, hsim2, hsim3, ?_⟩
  simp only [find, hmiss, hscan, hext]

/-- Witness for C10 (amended): the query "Va ya" (only short words) against a
cache holding a long-word entry and a short-word entry for the same pattern —
the scan settles on the short-word one. -/
theorem C10_empty_word_sets_witness :
    (∀ s1 s2 : Str, wordSet s1 = [] → wordSet s2 = [] →
       calculateSimilarity s1 s2 = ⟨1, 1⟩) ∧
    (∀ s1 s2 : Str, wordSet s1 = [] → wordSet s2 ≠ [] →
       calculateSimilarity s1 s2 = ⟨0, 1⟩) ∧
    (∀ s1 s2 : Str, wordSet s1 ≠ [] → wordSet s2 = [] →
       calculateSimilarity s1 s2 = ⟨0, 1⟩) ∧
    find DEFAULT_CONFIG 5
      (itemsCache
        [("/a".data, "otra frase larga".data,
          ⟨[⟨"#1".data, "click".data, "d1".data, none⟩], "r1".data, 0, 0, 1, 0⟩),
         ("/a".data, "no si".data,
          ⟨[⟨"#2".data, "click".data, "d2".data, none⟩], "r2".data, 0, 0, 1, 0⟩)])
      "https://e.com/a".data "Va ya".data =
      (([("/a".data, "otra frase larga".data,
          ⟨[⟨"#1".data, "click".data, "d1".data, none⟩], "r1".data, 0, 0, 1, 0⟩),
         ("/a".data, "no si".data,
          ⟨[⟨"#2".data, "click".data, "d2".data, none⟩], "r2".data, 0, 0, 1, 0⟩)].find?
          (fun t =>
            decide (t.1 = extractUrlPattern "https://e.com/a".data) &&
            !isExpired DEFAULT_CONFIG 5 t.2.2 &&
            decide (t.2.2.failureCount < DEFAULT_CONFIG.maxFailures) &&
            (wordSet t.2.1).isEmpty)).map (fun t => t.2.2),
       itemsCache
        [("/a".data, "otra frase larga".data,
          ⟨[⟨"#1".data, "click".data, "d1".data, none⟩], "r1".data, 0, 0, 1, 0⟩),
         ("/a".data, "no si".data,
          ⟨[⟨"#2".data, "click".data, "d2".data, none⟩], "r2".data, 0, 0, 1, 0⟩)]) :=
  C10_empty_word_sets DEFAULT_CONFIG 5
    [("/a".data, "otra frase larga".data,
      ⟨[⟨"#1".data, "click".data, "d1".data, none⟩], "r1".data, 0, 0, 1, 0⟩),
     ("/a".data, "no si".data,
      ⟨[⟨"#2".data, "click".data, "d2".data, none⟩], "r2".data, 0, 0, 1, 0⟩)]
    "https://e.com/a".data "Va ya".data
    (by decide) (by decide) (by decide) (by decide) (by decide) (by decide) (by decide)

/-- C10: the consequence half of the claim is false as stated.  On the legal
page pattern "/x::y", the query "ok" (only short words) makes `find` return
the entry stored for "hello world foo" — an instruction with words longer
than 2 characters — because the scan's split takes "y" (a pattern fragment,
empty word set) instead of the stored instruction. -/
theorem C10_counterexample :
    wordSet (normalizeInstruction "ok".data) = [] ∧
    (find DEFAULT_CONFIG 0
        (set DEFAULT_CONFIG 0 [] "https://h/x::y".data "hello world foo".data
          [⟨"#b".data, "click".data, "d".data, none⟩] "r".data)
        "https://h/x::y".data "ok".data).1 =
      some ⟨[⟨"#b".data, "click".data, "d".data, none⟩], "r".data, 0, 0, 1, 0⟩ ∧
    wordSet (normalizeInstruction "hello world foo".data) ≠ [] := by
  decide

theorem eraseKey_sublist : ∀ (c : Cache) (k : Str), List.Sublist (eraseKey c k) c
  | [], _ => List.Sublist.refl []
  | (k0, e0) :: r, k => by
    by_cases hk : k0 = k
    · simp only [eraseKey, if_pos hk]
      exact List.sublist_cons_self (k0, e0) r
    · simp only [eraseKey, if_neg hk]
      exact List.Sublist.cons₂ (k0, e0) (eraseKey_sublist r k)

theorem eraseKey_eq_filter : ∀ (c : Cache) (k : Str), (c.map Prod.fst).Nodup →
    eraseKey c k = c.filter (fun p => decide (p.1 ≠ k))
  | [], _, _ => rfl
  | (k0, e0) :: r, k, h => by
    simp only [List.map_cons, List.nodup_cons] at h
    by_cases hk : k0 = k
    · subst hk
      have h1 : eraseKey ((k0, e0) :: r) k0 = r := by simp [eraseKey]
      have h2 : ((k0, e0) :: r).filter (fun p => decide (p.1 ≠ k0)) =
          r.filter (fun p => decide (p.1 ≠ k0)) := by
        simp [List.filter_cons]
      have h3 : r.filter (fun p => decide (p.1 ≠ k0)) = r := by
        refine List.filter_eq_self.mpr ?_
        intro p hp
        have hne : p.1 ≠ k0 := fun hh => h.1 (by
          rw [← hh]
          exact List.mem_map_of_mem Prod.fst hp)
        exact decide_eq_true hne
      rw [h1, h2, h3]
    · have h1 : eraseKey ((k0, e0) :: r) k = (k0, e0) :: eraseKey r k := by
        simp [eraseKey, hk]
      have h2 : ((k0, e0) :: r).filter (fun p => decide (p.1 ≠ k)) =
          (k0, e0) :: r.filter (fun p => decide (p.1 ≠ k)) := by
        rw [List.filter_cons, if_pos (by simp [hk])]
      rw [h1, h2, eraseKey_eq_filter r k h.2]

theorem foldl_eraseKey_eq_filter : ∀ (ks : List Str) (c : Cache),
    (c.map Prod.fst).Nodup →
    ks.foldl eraseKey c = c.filter (fun p => decide (p.1 ∉ ks))
  | [], c, _ => by
    simp only [List.foldl_nil]
    symm
    refine List.filter_eq_self.mpr ?_
    intro p hp
    simp
  | k :: ks, c, h => by
    have h1 : eraseKey c k = c.filter (fun p => decide (p.1 ≠ k)) :=
      eraseKey_eq_filter c k h
    have h2 : ((eraseKey c k).map Prod.fst).Nodup :=
      h.sublist ((eraseKey_sublist c k).map Prod.fst)
    calc (k :: ks).foldl eraseKey c = ks.foldl eraseKey (eraseKey c k) := rfl
    _ = (eraseKey c k).filter (fun p => decide (p.1 ∉ ks)) :=
        foldl_eraseKey_eq_filter ks _ h2
    _ = (c.filter (fun p => decide (p.1 ≠ k))).filter (fun p => decide (p.1 ∉ ks)) := by
        rw [h1]
    _ = c.filter (fun p => decide (p.1 ∉ k :: ks)) := by
        rw [List.filter_filter]
        refine List.filter_congr ?_
        intro p hp
        by_cases hk : p.1 = k <;> by_cases hks : p.1 ∈ ks <;> simp [hk, hks]

theorem keys_nodup_inj (l : Cache) (h : (l.map Prod.fst).Nodup) :
    ∀ a ∈ l, ∀ b ∈ l, a.1 = b.1 → a = b := by
  induction l with
  | nil => intro a ha; exact absurd ha (List.not_mem_nil a)
  | cons x r ih =>
    simp only [List.map_cons, List.nodup_cons] at h
    intro a ha b hb hab
    rcases List.mem_cons.mp ha with ha1 | ha2 <;>
      rcases List.mem_cons.mp hb with hb1 | hb2
    · rw [ha1, hb1]
    · exfalso
      apply h.1
      rw [ha1] at hab
      rw [hab]
      exact List.mem_map_of_mem Prod.fst hb2
    · exfalso
      apply h.1
      rw [hb1] at hab
      rw [← hab]
      exact List.mem_map_of_mem Prod.fst ha2
    · exact ih h.2 a ha2 b hb2 hab

theorem length_setKey_le : ∀ (c : Cache) (k : Str) (v : CachedSelector),
    (setKey c k v).length ≤ c.length + 1
  | [], _, _ => by simp [setKey]
  | (k0, e0) :: r, k, v => by
    by_cases hk : k0 = k
    · simp [setKey, hk]
    · simp only [setKey, if_neg hk, List.length_cons]
      have := length_setKey_le r k v
      omega

theorem enforceMaxSize_spec (cfg : SelectorCacheConfig) (cache : Cache)
    (hnd : (cache.map Prod.fst).Nodup) (htr : cfg.maxSize ≤ cache.length) :
    (enforceMaxSize cfg cache).length + cfg.maxSize * 2 / 10 = cache.length ∧
    List.Sublist (enforceMaxSize cfg cache) cache ∧
    (∀ p ∈ cache, p ∉ enforceMaxSize cfg cache →
      ∀ q ∈ enforceMaxSize cfg cache, p.2.lastSuccess ≤ q.2.lastSuccess) := by
  have hperm : List.Perm (List.insertionSort byLastSuccess cache) cache :=
    List.perm_insertionSort byLastSuccess cache
  have hsortnd : ((List.insertionSort byLastSuccess cache).map Prod.fst).Nodup :=
    (hperm.map Prod.fst).nodup_iff.mpr hnd
  have hlen : (List.insertionSort byLastSuccess cache).length = cache.length :=
    hperm.length_eq
  have ht : cfg.maxSize * 2 / 10 ≤ cache.length := by omega
  have hsplit :
      (List.insertionSort byLastSuccess cache).take (cfg.maxSize * 2 / 10) ++
        (List.insertionSort byLastSuccess cache).drop (cfg.maxSize * 2 / 10) =
      List.insertionSort byLastSuccess cache :=
    List.take_append_drop _ _
  have hkeys_split :
      ((List.insertionSort byLastSuccess cache).take (cfg.maxSize * 2 / 10)).map
          Prod.fst ++
        ((List.insertionSort byLastSuccess cache).drop (cfg.maxSize * 2 / 10)).map
          Prod.fst =
      (List.insertionSort byLastSuccess cache).map Prod.fst := by
    rw [← List.map_append, hsplit]
  have hdisj0 :
      (((List.insertionSort byLastSuccess cache).take (cfg.maxSize * 2 / 10)).map
        Prod.fst).Disjoint
        (((List.insertionSort byLastSuccess cache).drop (cfg.maxSize * 2 / 10)).map
          Prod.fst) := by
    have h2 := hsortnd
    rw [← hkeys_split] at h2
    exact (List.nodup_append.mp h2).2.2
  have hdisj :
      ∀ q ∈ (List.insertionSort byLastSuccess cache).drop (cfg.maxSize * 2 / 10),
      q.1 ∉ ((List.insertionSort byLastSuccess cache).take
        (cfg.maxSize * 2 / 10)).map Prod.fst :=
    fun q hq hmem => hdisj0 hmem (List.mem_map_of_mem Prod.fst hq)
  have hEnf : enforceMaxSize cfg cache =
      cache.filter (fun p => decide (p.1 ∉
        ((List.insertionSort byLastSuccess cache).take
          (cfg.maxSize * 2 / 10)).map Prod.fst)) := by
    simp only [enforceMaxSize, if_pos htr]
    exact foldl_eraseKey_eq_filter _ cache hnd
  have hfiltake :
      ((List.insertionSort byLastSuccess cache).take (cfg.maxSize * 2 / 10)).filter
        (fun p => decide (p.1 ∉
          ((List.insertionSort byLastSuccess cache).take
            (cfg.maxSize * 2 / 10)).map Prod.fst)) = [] := by
    rw [List.filter_eq_nil_iff]
    intro p hp
    simp only [decide_eq_true_eq, not_not]
    exact List.mem_map_of_mem Prod.fst hp
  have hfildrop :
      ((List.insertionSort byLastSuccess cache).drop (cfg.maxSize * 2 / 10)).filter
        (fun p => decide (p.1 ∉
          ((List.insertionSort byLastSuccess cache).take
            (cfg.maxSize * 2 / 10)).map Prod.fst)) =
      (List.insertionSort byLastSuccess cache).drop (cfg.maxSize * 2 / 10) := by
    refine List.filter_eq_self.mpr ?_
    intro q hq
    exact decide_eq_true (hdisj q hq)
  have hfilperm := (hperm.filter (fun p => decide (p.1 ∉
    ((List.insertionSort byLastSuccess cache).take
      (cfg.maxSize * 2 / 10)).map Prod.fst)))
  have hlenfil : (enforceMaxSize cfg cache).length + cfg.maxSize * 2 / 10 =
      cache.length := by
    rw [hEnf, ← hfilperm.length_eq]
    generalize hV : (((List.insertionSort byLastSuccess cache).take
      (cfg.maxSize * 2 / 10)).map Prod.fst) = V at hfiltake hfildrop ⊢
    rw [← hsplit, List.filter_append, hfiltake, hfildrop, List.nil_append,
      List.length_drop, hlen]
    omega
  refine ⟨hlenfil, by rw [hEnf]; exact List.filter_sublist cache, ?_⟩
  intro p hp hpnot q hq
  have hPp : p.1 ∈ ((List.insertionSort byLastSuccess cache).take
      (cfg.maxSize * 2 / 10)).map Prod.fst := by
    by_contra hcontra
    exact hpnot (by
      rw [hEnf]
      exact List.mem_filter.mpr ⟨hp, decide_eq_true hcontra⟩)
  rcases List.mem_map.mp hPp with ⟨p1, hp1, hp1eq⟩
  have hpsorted : p ∈ List.insertionSort byLastSuccess cache := hperm.mem_iff.mpr hp
  have hp1sorted : p1 ∈ List.insertionSort byLastSuccess cache :=
    List.mem_of_mem_take hp1
  have hpeq : p1 = p := keys_nodup_inj _ hsortnd p1 hp1sorted p hpsorted hp1eq
  have hptake : p ∈ (List.insertionSort byLastSuccess cache).take
      (cfg.maxSize * 2 / 10) := hpeq ▸ hp1
  have hqfil := hq
  rw [hEnf] at hqfil
  rcases List.mem_filter.mp hqfil with ⟨hqcache, hqP⟩
  have hqnotvict : q.1 ∉ ((List.insertionSort byLastSuccess cache).take
      (cfg.maxSize * 2 / 10)).map Prod.fst := of_decide_eq_true hqP
  have hqsorted : q ∈ List.insertionSort byLastSuccess cache := hperm.mem_iff.mpr hqcache
  have hqdrop : q ∈ (List.insertionSort byLastSuccess cache).drop
      (cfg.maxSize * 2 / 10) := by
    have := hqsorted
    rw [← hsplit] at this
    rcases List.mem_append.mp this with htk | hdr
    · exact absurd (List.mem_map_of_mem Prod.fst htk) hqnotvict
    · exact hdr
  have hsorted : List.Sorted byLastSuccess (List.insertionSort byLastSuccess cache) :=
    List.sorted_insertionSort byLastSuccess cache
  have hsorted2 := hsorted
  rw [← hsplit] at hsorted2
  have hcross := (List.pairwise_append.mp hsorted2).2.2
  exact hcross p hptake q hqdrop

/-- C2: the size bound is false as stated.  With maxSize = 1 and two `set`
calls from the empty cache (a fully reachable run), `enforceMaxSize` triggers
at the second call but evicts `Math.floor(1 * 0.2) = 0` entries, and the
insertion leaves 2 > maxSize entries in the cache. -/
theorem C2_counterexample :
    (set
      ⟨1, 24 * 60 * 60 * 1000, 3, 0, [], [], ⟨85, 100⟩, false⟩
      1
      (set ⟨1, 24 * 60 * 60 * 1000, 3, 0, [], [], ⟨85, 100⟩, false⟩ 0 []
        "https://e.com/a".data "uno".data
        [⟨"#1".data, "click".data, "d".data, none⟩] "r1".data)
      "https://e.com/a".data "dos".data
      [⟨"#2".data, "click".data, "d".data, none⟩] "r2".data).length = 2 ∧
    ¬ ((set
      ⟨1, 24 * 60 * 60 * 1000, 3, 0, [], [], ⟨85, 100⟩, false⟩
      1
      (set ⟨1, 24 * 60 * 60 * 1000, 3, 0, [], [], ⟨85, 100⟩, false⟩ 0 []
        "https://e.com/a".data "uno".data
        [⟨"#1".data, "click".data, "d".data, none⟩] "r1".data)
      "https://e.com/a".data "dos".data
      [⟨"#2".data, "click".data, "d".data, none⟩] "r2".data).length ≤
      (⟨1, 24 * 60 * 60 * 1000, 3, 0, [], [], ⟨85, 100⟩,
        false⟩ : SelectorCacheConfig).maxSize) := by
  decide

/-- C2 (amended): for maxSize ≥ 5 (so that the eviction count
Math.floor(maxSize * 0.2) = maxSize * 2 / 10 is at least 1) and a cache of at
most maxSize entries with unique keys, a `set` call leaves at most maxSize
entries; eviction happens before the insertion (set = insert after
enforceMaxSize), triggers when the size has REACHED maxSize (not when the
insertion would exceed it), and removes exactly maxSize * 2 / 10 entries that
are oldest by lastSuccess, preserving the order of the survivors. -/
theorem C2_size_bound (cfg : SelectorCacheConfig) (now : Nat) (cache : Cache)
    (url ins : Str) (acts : List CachedAction) (rsn : Str)
    (h5 : 5 ≤ cfg.maxSize)
    (hnd : (cache.map Prod.fst).Nodup)
    (hle : cache.length ≤ cfg.maxSize) :
    (set cfg now cache url ins acts rsn).length ≤ cfg.maxSize ∧
    set cfg now cache url ins acts rsn =
      setKey (enforceMaxSize cfg cache) (generateCacheKey url ins)
        ⟨acts, rsn, now, now, 1, 0⟩ ∧
    (cfg.maxSize ≤ cache.length →
      (enforceMaxSize cfg cache).length + cfg.maxSize * 2 / 10 = cache.length ∧
      List.Sublist (enforceMaxSize cfg cache) cache ∧
      (∀ p ∈ cache, p ∉ enforceMaxSize cfg cache →
        ∀ q ∈ enforceMaxSize cfg cache, p.2.lastSuccess ≤ q.2.lastSuccess)) := by
  refine ⟨?_, rfl, fun htr => enforceMaxSize_spec cfg cache hnd htr⟩
  have hsetle := length_setKey_le (enforceMaxSize cfg cache)
    (generateCacheKey url ins) ⟨acts, rsn, now, now, 1, 0⟩
  have hseteq : (set cfg now cache url ins acts rsn).length =
      (setKey (enforceMaxSize cfg cache) (generateCacheKey url ins)
        ⟨acts, rsn, now, now, 1, 0⟩).length := rfl
  by_cases htr : cfg.maxSize ≤ cache.length
  · have hlen := (enforceMaxSize_spec cfg cache hnd htr).1
    omega
  · have hEnf : enforceMaxSize cfg cache = cache := by
      simp [enforceMaxSize, htr]
    rw [hseteq, hEnf]
    rw [hEnf] at hsetle
    omega

/-- Witness for C2 (amended): a full five-entry cache at maxSize = 5; the set
call evicts the single oldest entry (lastSuccess 1) and inserts the new one,
ending at exactly five entries. -/
theorem C2_size_bound_witness :
    (set ⟨5, 24 * 60 * 60 * 1000, 3, 0, [], [], ⟨85, 100⟩, false⟩ 20
      [("k1".data, ⟨[], "r".data, 0, 10, 1, 0⟩),
       ("k2".data, ⟨[], "r".data, 0, 3, 1, 0⟩),
       ("k3".data, ⟨[], "r".data, 0, 7, 1, 0⟩),
       ("k4".data, ⟨[], "r".data, 0, 1, 1, 0⟩),
       ("k5".data, ⟨[], "r".data, 0, 9, 1, 0⟩)]
      "https://e.com/a".data "nuevo".data
      [⟨"#n".data, "click".data, "d".data, none⟩] "rn".data).length ≤
      (⟨5, 24 * 60 * 60 * 1000, 3, 0, [], [], ⟨85, 100⟩,
        false⟩ : SelectorCacheConfig).maxSize ∧
    set ⟨5, 24 * 60 * 60 * 1000, 3, 0, [], [], ⟨85, 100⟩, false⟩ 20
      [("k1".data, ⟨[], "r".data, 0, 10, 1, 0⟩),
       ("k2".data, ⟨[], "r".data, 0, 3, 1, 0⟩),
       ("k3".data, ⟨[], "r".data, 0, 7, 1, 0⟩),
       ("k4".data, ⟨[], "r".data, 0, 1, 1, 0⟩),
       ("k5".data, ⟨[], "r".data, 0, 9, 1, 0⟩)]
      "https://e.com/a".data "nuevo".data
      [⟨"#n".data, "click".data, "d".data, none⟩] "rn".data =
      setKey
        (enforceMaxSize ⟨5, 24 * 60 * 60 * 1000, 3, 0, [], [], ⟨85, 100⟩, false⟩
          [("k1".data, ⟨[], "r".data, 0, 10, 1, 0⟩),
           ("k2".data, ⟨[], "r".data, 0, 3, 1, 0⟩),
           ("k3".data, ⟨[], "r".data, 0, 7, 1, 0⟩),
           ("k4".data, ⟨[], "r".data, 0, 1, 1, 0⟩),
           ("k5".data, ⟨[], "r".data, 0, 9, 1, 0⟩)])
        (generateCacheKey "https://e.com/a".data "nuevo".data)
        ⟨[⟨"#n".data, "click".data, "d".data, none⟩], "rn".data, 20, 20, 1, 0⟩ ∧
    ((⟨5, 24 * 60 * 60 * 1000, 3, 0, [], [], ⟨85, 100⟩,
        false⟩ : SelectorCacheConfig).maxSize ≤
      ([("k1".data, ⟨[], "r".data, 0, 10, 1, 0⟩),
        ("k2".data, ⟨[], "r".data, 0, 3, 1, 0⟩),
        ("k3".data, ⟨[], "r".data, 0, 7, 1, 0⟩),
        ("k4".data, ⟨[], "r".data, 0, 1, 1, 0⟩),
        ("k5".data, ⟨[], "r".data, 0, 9, 1, 0⟩)] : Cache).length →
      (enforceMaxSize ⟨5, 24 * 60 * 60 * 1000, 3, 0, [], [], ⟨85, 100⟩, false⟩
        [("k1".data, ⟨[], "r".data, 0, 10, 1, 0⟩),
         ("k2".data, ⟨[], "r".data, 0, 3, 1, 0⟩),
         ("k3".data, ⟨[], "r".data, 0, 7, 1, 0⟩),
         ("k4".data, ⟨[], "r".data, 0, 1, 1, 0⟩),
         ("k5".data, ⟨[], "r".data, 0, 9, 1, 0⟩)]).length +
        (⟨5, 24 * 60 * 60 * 1000, 3, 0, [], [], ⟨85, 100⟩,
          false⟩ : SelectorCacheConfig).maxSize * 2 / 10 = 5 ∧
      List.Sublist
        (enforceMaxSize ⟨5, 24 * 60 * 60 * 1000, 3, 0, [], [], ⟨85, 100⟩, false⟩
          [("k1".data, ⟨[], "r".data, 0, 10, 1, 0⟩),
           ("k2".data, ⟨[], "r".data, 0, 3, 1, 0⟩),
           ("k3".data, ⟨[], "r".data, 0, 7, 1, 0⟩),
           ("k4".data, ⟨[], "r".data, 0, 1, 1, 0⟩),
           ("k5".data, ⟨[], "r".data, 0, 9, 1, 0⟩)])
        [("k1".data, ⟨[], "r".data, 0, 10, 1, 0⟩),
         ("k2".data, ⟨[], "r".data, 0, 3, 1, 0⟩),
         ("k3".data, ⟨[], "r".data, 0, 7, 1, 0⟩),
         ("k4".data, ⟨[], "r".data, 0, 1, 1, 0⟩),
         ("k5".data, ⟨[], "r".data, 0, 9, 1, 0⟩)] ∧
      (∀ p ∈ ([("k1".data, ⟨[], "r".data, 0, 10, 1, 0⟩),
               ("k2".data, ⟨[], "r".data, 0, 3, 1, 0⟩),
               ("k3".data, ⟨[], "r".data, 0, 7, 1, 0⟩),
               ("k4".data, ⟨[], "r".data, 0, 1, 1, 0⟩),
               ("k5".data, ⟨[], "r".data, 0, 9, 1, 0⟩)] : Cache),
        p ∉ enforceMaxSize ⟨5, 24 * 60 * 60 * 1000, 3, 0, [], [], ⟨85, 100⟩, false⟩
          [("k1".data, ⟨[], "r".data, 0, 10, 1, 0⟩),
           ("k2".data, ⟨[], "r".data, 0, 3, 1, 0⟩),
           ("k3".data, ⟨[], "r".data, 0, 7, 1, 0⟩),
           ("k4".data, ⟨[], "r".data, 0, 1, 1, 0⟩),
           ("k5".data, ⟨[], "r".data, 0, 9, 1, 0⟩)] →
        ∀ q ∈ enforceMaxSize ⟨5, 24 * 60 * 60 * 1000, 3, 0, [], [], ⟨85, 100⟩, false⟩
          [("k1".data, ⟨[], "r".data, 0, 10, 1, 0⟩),
           ("k2".data, ⟨[], "r".data, 0, 3, 1, 0⟩),
           ("k3".data, ⟨[], "r".data, 0, 7, 1, 0⟩),
           ("k4".data, ⟨[], "r".data, 0, 1, 1, 0⟩),
           ("k5".data, ⟨[], "r".data, 0, 9, 1, 0⟩)],
          p.2.lastSuccess ≤ q.2.lastSuccess)) :=
  C2_size_bound ⟨5, 24 * 60 * 60 * 1000, 3, 0, [], [], ⟨85, 100⟩, false⟩ 20
    [("k1".data, ⟨[], "r".data, 0, 10, 1, 0⟩),
     ("k2".data, ⟨[], "r".data, 0, 3, 1, 0⟩),
     ("k3".data, ⟨[], "r".data, 0, 7, 1, 0⟩),
     ("k4".data, ⟨[], "r".data, 0, 1, 1, 0⟩),
     ("k5".data, ⟨[], "r".data, 0, 9, 1, 0⟩)]
    "https://e.com/a".data "nuevo".data
    [⟨"#n".data, "click".data, "d".data, none⟩] "rn".data
    (by decide) (by decide) (by decide)

theorem isWordChar_not_space (c : Char) (h : isWordChar c = true) :
    isJsSpace c = false := by
  simp only [isWordChar, decide_eq_true_eq] at h
  simp only [isJsSpace, decide_eq_false_iff_not]
  omega

theorem isWordChar_not_combining (c : Char) (h : isWordChar c = true) :
    isCombiningMark c = false := by
  simp only [isWordChar, decide_eq_true_eq] at h
  simp only [isCombiningMark, decide_eq_false_iff_not]
  omega

theorem isJsSpace_not_combining (c : Char) (h : isJsSpace c = true) :
    isCombiningMark c = false := by
  simp only [isJsSpace, decide_eq_true_eq] at h
  simp only [isCombiningMark, decide_eq_false_iff_not]
  omega

theorem lowerTable_rhs_fixed :
    ∀ p ∈ lowerTable, ∀ c ∈ nfdChar p.2, jsLowerChar c = c ∧ nfdChar c = [c] := by
  decide

theorem nfdTable_rhs_fixed :
    ∀ p ∈ nfdTable, ∀ c ∈ p.2, jsLowerChar c = c ∧ nfdChar c = [c] := by
  decide

theorem nfd_lower_provenance (c : Char) :
    ∀ d ∈ nfdChar (jsLowerChar c), jsLowerChar d = d ∧ nfdChar d = [d] := by
  intro d hd
  cases hfl : lowerTable.find? (fun p => p.1 == c) with
  | none =>
    have hlc : jsLowerChar c = c := by simp [jsLowerChar, hfl]
    rw [hlc] at hd
    cases hfn : nfdTable.find? (fun p => p.1 == c) with
    | none =>
      have hnc : nfdChar c = [c] := by simp [nfdChar, hfn]
      rw [hnc] at hd
      have hdc : d = c := by simpa using hd
      subst hdc
      exact ⟨by simp [jsLowerChar, hfl], by simp [nfdChar, hfn]⟩
    | some q =>
      have hq : q ∈ nfdTable := List.mem_of_find?_eq_some hfn
      have hnc : nfdChar c = q.2 := by simp [nfdChar, hfn]
      rw [hnc] at hd
      exact nfdTable_rhs_fixed q hq d hd
  | some p =>
    have hp : p ∈ lowerTable := List.mem_of_find?_eq_some hfl
    have hlc : jsLowerChar c = p.2 := by simp [jsLowerChar, hfl]
    rw [hlc] at hd
    exact lowerTable_rhs_fixed p hp d hd

theorem mem_nfdStr : ∀ (s : Str) (d : Char), d ∈ nfdStr s → ∃ c ∈ s, d ∈ nfdChar c
  | [], _, h => absurd h (List.not_mem_nil _)
  | c :: r, d, h => by
    rcases List.mem_append.mp h with h1 | h2
    · exact ⟨c, List.mem_cons_self c r, h1⟩
    · rcases mem_nfdStr r d h2 with ⟨c2, hc2, hd2⟩
      exact ⟨c2, List.mem_cons_of_mem c hc2, hd2⟩

theorem mem_collapseAux : ∀ (b : Bool) (s : Str) (c : Char),
    c ∈ collapseAux b s → (c ∈ s ∧ isJsSpace c = false) ∨ c = ' '
  | _, [], _, h => absurd h (List.not_mem_nil _)
  | b, x :: r, c, h => by
    by_cases hx : isJsSpace x = true
    · cases b with
      | true =>
        simp only [collapseAux, hx, if_true] at h
        rcases mem_collapseAux true r c h with ⟨h1, h2⟩ | h3
        · exact Or.inl ⟨List.mem_cons_of_mem x h1, h2⟩
        · exact Or.inr h3
      | false =>
        simp only [collapseAux, hx, if_true] at h
        rcases List.mem_cons.mp h with h1 | h2
        · exact Or.inr h1
        · rcases mem_collapseAux true r c h2 with ⟨h3, h4⟩ | h5
          · exact Or.inl ⟨List.mem_cons_of_mem x h3, h4⟩
          · exact Or.inr h5
    · rw [Bool.not_eq_true] at hx
      have hstep : collapseAux b (x :: r) = x :: collapseAux false r := by
        simp [collapseAux, hx]
      rw [hstep] at h
      rcases List.mem_cons.mp h with h1 | h2
      · exact Or.inl ⟨by rw [h1]; exact List.mem_cons_self x r, h1 ▸ hx⟩
      · rcases mem_collapseAux false r c h2 with ⟨h3, h4⟩ | h5
        · exact Or.inl ⟨List.mem_cons_of_mem x h3, h4⟩
        · exact Or.inr h5

theorem jsTrim_isInfix (s : Str) : jsTrim s <:+: s := by
  have h1 : s.dropWhile isJsSpace <:+ s := List.dropWhile_suffix isJsSpace
  have h2 : (s.dropWhile isJsSpace).reverse.dropWhile isJsSpace <:+
      (s.dropWhile isJsSpace).reverse := List.dropWhile_suffix isJsSpace
  have h3 : ((s.dropWhile isJsSpace).reverse.dropWhile isJsSpace).reverse <+:
      s.dropWhile isJsSpace := by
    have := List.reverse_prefix.mpr h2
    rwa [List.reverse_reverse] at this
  exact (h3.isInfix).trans (h1.isInfix)

theorem mem_jsTrim (s : Str) (c : Char) (h : c ∈ jsTrim s) : c ∈ s :=
  (jsTrim_isInfix s).sublist.subset h

theorem head_collapseAux_true : ∀ (s : Str) (c : Char),
    (collapseAux true s).head? = some c → isJsSpace c = false
  | [], c, h => by simp [collapseAux] at h
  | x :: r, c, h => by
    by_cases hx : isJsSpace x = true
    · simp only [collapseAux, hx, if_true] at h
      exact head_collapseAux_true r c h
    · rw [Bool.not_eq_true] at hx
      have hstep : collapseAux true (x :: r) = x :: collapseAux false r := by
        simp [collapseAux, hx]
      rw [hstep] at h
      simp only [List.head?_cons, Option.some.injEq] at h
      rw [← h]
      exact hx

theorem chain'_collapseAux : ∀ (s : Str) (b : Bool),
    List.Chain' (fun a d => ¬(isJsSpace a = true ∧ isJsSpace d = true))
      (collapseAux b s)
  | [], _ => List.chain'_nil
  | x :: r, b => by
    by_cases hx : isJsSpace x = true
    · cases b with
      | true =>
        simp only [collapseAux, hx, if_true]
        exact chain'_collapseAux r true
      | false =>
        simp only [collapseAux, hx, if_true]
        refine List.chain'_cons'.mpr ⟨?_, chain'_collapseAux r true⟩
        intro y hy
        have := head_collapseAux_true r y (by
          cases hh : (collapseAux true r).head? with
          | none => rw [hh] at hy; exact absurd hy (by simp)
          | some z =>
            rw [hh] at hy
            simp only [Option.mem_def, Option.some.injEq] at hy
            simp [hy]
        )
        rintro ⟨-, hy2⟩
        rw [this] at hy2
        exact absurd hy2 (by simp)
    · rw [Bool.not_eq_true] at hx
      have hstep : collapseAux b (x :: r) = x :: collapseAux false r := by
        simp [collapseAux, hx]
      rw [hstep]
      refine List.chain'_cons'.mpr ⟨?_, chain'_collapseAux r false⟩
      intro y hy
      rintro ⟨hx2, -⟩
      rw [hx] at hx2
      exact absurd hx2 (by simp)

theorem dropWhile_head_false (p : Char → Bool) (l : Str) (c : Char)
    (h : (l.dropWhile p).head? = some c) : p c = false := by
  have := List.head?_dropWhile_not p l
  rw [h] at this
  simpa using this

theorem dropWhile_id_of_head (p : Char → Bool) :
    ∀ l : Str, (∀ c, l.head? = some c → p c = false) → l.dropWhile p = l
  | [], _ => rfl
  | c :: r, h => by
    have := h c rfl
    simp [List.dropWhile_cons, this]

theorem getLast?_dropWhile (p : Char → Bool) :
    ∀ l : Str, l.dropWhile p ≠ [] → (l.dropWhile p).getLast? = l.getLast?
  | [], h => absurd rfl h
  | c :: r, h => by
    by_cases hc : p c = true
    · have hstep : (c :: r).dropWhile p = r.dropWhile p := by
        simp [List.dropWhile_cons, hc]
      rw [hstep] at h ⊢
      have hr : r ≠ [] := by
        intro hre
        rw [hre] at h
        exact h rfl
      rw [getLast?_dropWhile p r h]
      cases r with
      | nil => exact absurd rfl hr
      | cons d r2 => rw [List.getLast?_cons_cons]
    · rw [Bool.not_eq_true] at hc
      simp [List.dropWhile_cons, hc]

theorem jsTrim_head_not_space (s : Str) (c : Char)
    (h : (jsTrim s).head? = some c) : isJsSpace c = false := by
  unfold jsTrim at h
  rw [List.head?_reverse] at h
  have hne : (s.dropWhile isJsSpace).reverse.dropWhile isJsSpace ≠ [] := by
    intro hemp
    rw [hemp] at h
    simp at h
  rw [getLast?_dropWhile isJsSpace _ hne, List.getLast?_reverse] at h
  exact dropWhile_head_false isJsSpace _ c h

theorem jsTrim_getLast_not_space (s : Str) (c : Char)
    (h : (jsTrim s).getLast? = some c) : isJsSpace c = false := by
  unfold jsTrim at h
  rw [List.getLast?_reverse] at h
  exact dropWhile_head_false isJsSpace _ c h

theorem jsTrim_id (s : Str)
    (h1 : ∀ c, s.head? = some c → isJsSpace c = false)
    (h2 : ∀ c, s.getLast? = some c → isJsSpace c = false) : jsTrim s = s := by
  unfold jsTrim
  rw [dropWhile_id_of_head isJsSpace s h1]
  rw [dropWhile_id_of_head isJsSpace s.reverse
    (fun c hc => h2 c (by rwa [List.head?_reverse] at hc))]
  exact List.reverse_reverse s

theorem collapseAux_id : ∀ s : Str,
    List.Chain' (fun a d => ¬(isJsSpace a = true ∧ isJsSpace d = true)) s →
    (∀ c ∈ s, isJsSpace c = true → c = ' ') →
    collapseAux false s = s ∧
      ((∀ c, s.head? = some c → isJsSpace c = false) → collapseAux true s = s)
  | [], _, _ => ⟨rfl, fun _ => rfl⟩
  | c :: r, hch, hsp => by
    have hch2 := List.chain'_cons'.mp hch
    have ih := collapseAux_id r hch2.2 (fun d hd => hsp d (List.mem_cons_of_mem c hd))
    by_cases hc : isJsSpace c = true
    · have hcsp : c = ' ' := hsp c (List.mem_cons_self c r) hc
      have htrue : collapseAux true r = r := by
        refine ih.2 ?_
        intro y hy
        have hR := hch2.1 y hy
        cases hys : isJsSpace y with
        | false => rfl
        | true => exact absurd ⟨hc, hys⟩ hR
      constructor
      · have hstep : collapseAux false (c :: r) = ' ' :: collapseAux true r := by
          simp [collapseAux, hc]
        rw [hstep, htrue, hcsp]
      · intro hh
        have hcontra := hh c rfl
        rw [hc] at hcontra
        exact absurd hcontra (by simp)
    · rw [Bool.not_eq_true] at hc
      have hstep1 : collapseAux false (c :: r) = c :: collapseAux false r := by
        simp [collapseAux, hc]
      have hstep2 : collapseAux true (c :: r) = c :: collapseAux false r := by
        simp [collapseAux, hc]
      exact ⟨by rw [hstep1, ih.1], fun _ => by rw [hstep2, ih.1]⟩

theorem jsLowerStr_id : ∀ s : Str, (∀ c ∈ s, jsLowerChar c = c) → jsLowerStr s = s
  | [], _ => rfl
  | c :: r, h => by
    have hr := jsLowerStr_id r (fun d hd => h d (List.mem_cons_of_mem c hd))
    simp only [jsLowerStr, List.map_cons] at hr ⊢
    rw [h c (List.mem_cons_self c r), hr]

theorem nfdStr_id : ∀ s : Str, (∀ c ∈ s, nfdChar c = [c]) → nfdStr s = s
  | [], _ => rfl
  | c :: r, h => by
    have hr := nfdStr_id r (fun d hd => h d (List.mem_cons_of_mem c hd))
    simp only [nfdStr]
    rw [h c (List.mem_cons_self c r), hr]
    rfl

theorem normalize_chars (s : Str) :
    ∀ c ∈ normalizeInstruction s,
      jsLowerChar c = c ∧ nfdChar c = [c] ∧ isCombiningMark c = false ∧
      (isWordChar c || isJsSpace c) = true ∧ (isJsSpace c = true → c = ' ') := by
  intro c hc
  have hc1 : c ∈ stripPunct (collapseSpaces (stripMarks (nfdStr (jsLowerStr s)))) :=
    mem_jsTrim _ c hc
  rcases List.mem_filter.mp hc1 with ⟨hc2, hkeep⟩
  rcases mem_collapseAux false _ c hc2 with ⟨hc3, hcns⟩ | hcsp
  · rcases List.mem_filter.mp hc3 with ⟨hc4, -⟩
    rcases mem_nfdStr _ c hc4 with ⟨c0, hc0, hcn⟩
    rcases List.mem_map.mp hc0 with ⟨c1, -, hc1eq⟩
    rw [← hc1eq] at hcn
    have hfix := nfd_lower_provenance c1 c hcn
    have hword : isWordChar c = true := by
      rcases Bool.or_eq_true_iff.mp hkeep with hw | hs
      · exact hw
      · rw [hcns] at hs
        exact absurd hs (by simp)
    refine ⟨hfix.1, hfix.2, isWordChar_not_combining c hword, hkeep, ?_⟩
    intro hsp
    rw [hcns] at hsp
    exact absurd hsp (by simp)
  · subst hcsp
    exact ⟨by decide, by decide, by decide, by decide, fun _ => rfl⟩

theorem normalize_normalize (s : Str) :
    normalizeInstruction (normalizeInstruction s) =
      jsTrim (collapseSpaces (normalizeInstruction s)) := by
  have hch := normalize_chars s
  show jsTrim (stripPunct (collapseSpaces (stripMarks
    (nfdStr (jsLowerStr (normalizeInstruction s)))))) = _
  rw [jsLowerStr_id _ (fun c hc => (hch c hc).1)]
  rw [nfdStr_id _ (fun c hc => (hch c hc).2.1)]
  have hmarks : stripMarks (normalizeInstruction s) = normalizeInstruction s :=
    List.filter_eq_self.mpr (fun c hc => by simp [(hch c hc).2.2.1])
  rw [hmarks]
  have hpunct : stripPunct (collapseSpaces (normalizeInstruction s)) =
      collapseSpaces (normalizeInstruction s) := by
    refine List.filter_eq_self.mpr ?_
    intro c hc
    rcases mem_collapseAux false _ c hc with ⟨hc2, -⟩ | hcsp
    · exact (hch c hc2).2.2.2.1
    · subst hcsp
      decide
  rw [hpunct]

/-- C1 (amended): one application of the normalization map need not be a
fixpoint (punctuation removal runs after whitespace collapsing and may leave a
double space, see the counterexample), but the second application is: for
every string s, normalizing three times equals normalizing twice, i.e. the
image of normalizeInstruction ∘ normalizeInstruction consists of fixpoints. -/
theorem C1_double_normalize_fixpoint (s : Str) :
    normalizeInstruction (normalizeInstruction (normalizeInstruction s)) =
      normalizeInstruction (normalizeInstruction s) := by
  have hM := normalize_normalize s
  have h3 := normalize_normalize (normalizeInstruction s)
  have hchainM : List.Chain' (fun a d => ¬(isJsSpace a = true ∧ isJsSpace d = true))
      (normalizeInstruction (normalizeInstruction s)) := by
    rw [hM]
    exact List.Chain'.infix (chain'_collapseAux (normalizeInstruction s) false)
      (jsTrim_isInfix (collapseSpaces (normalizeInstruction s)))
  have hspM : ∀ c ∈ normalizeInstruction (normalizeInstruction s),
      isJsSpace c = true → c = ' ' :=
    fun c hc => (normalize_chars (normalizeInstruction s) c hc).2.2.2.2
  have hcol : collapseSpaces (normalizeInstruction (normalizeInstruction s)) =
      normalizeInstruction (normalizeInstruction s) :=
    (collapseAux_id _ hchainM hspM).1
  have hhead : ∀ c, (normalizeInstruction (normalizeInstruction s)).head? = some c →
      isJsSpace c = false :=
    fun c hc => jsTrim_head_not_space _ c hc
  have hlast : ∀ c, (normalizeInstruction (normalizeInstruction s)).getLast? = some c →
      isJsSpace c = false :=
    fun c hc => jsTrim_getLast_not_space _ c hc
  have htrim : jsTrim (normalizeInstruction (normalizeInstruction s)) =
      normalizeInstruction (normalizeInstruction s) :=
    jsTrim_id _ hhead hlast
  rw [h3]
  show jsTrim (collapseSpaces (normalizeInstruction (normalizeInstruction s))) = _
  rw [hcol, htrim]

/-- Certification that the executable Frac comparison is the real-number
comparison it models: for positive denominators, Frac.le coincides with ≤ on
the rationals n / d. -/
theorem Frac_le_iff_rat (a b : Frac) (ha : 0 < a.den) (hb : 0 < b.den) :
    Frac.le a b = true ↔ (a.num : ℚ) / a.den ≤ (b.num : ℚ) / b.den := by
  have ha2 : (0 : ℚ) < a.den := by exact_mod_cast ha
  have hb2 : (0 : ℚ) < b.den := by exact_mod_cast hb
  rw [Frac.le, decide_eq_true_eq, div_le_div_iff₀ ha2 hb2]
  constructor
  · intro h
    exact_mod_cast h
  · intro h
    exact_mod_cast h
